import Mathlib

/-!
Verification of the libvirt nwfilter ebtables/iptables driver
(`src/nwfilter/nwfilter_ebiptables_driver.c`) against its specification.

The development shallowly embeds the driver's string-level command
generation: chain names, rule-to-command compilation, ordering
comparators, and the apply/teardown command sequences.  Strings are
modelled as `List Char` so that every definition is executable and every
concrete instance can be checked by `decide` or `rfl`.
-/

set_option maxHeartbeats 1000000
set_option maxRecDepth 100000

namespace Ebiptables

/-- Strings of the driver are modelled as lists of characters. -/
abbrev Str := List Char

/-- `CHAINPREFIX_HOST_IN`. -/
def CHAINPREFIX_HOST_IN : Char := 'I'

/-- `CHAINPREFIX_HOST_OUT`. -/
def CHAINPREFIX_HOST_OUT : Char := 'O'

/-- `CHAINPREFIX_HOST_IN_TEMP`. -/
def CHAINPREFIX_HOST_IN_TEMP : Char := 'J'

/-- `CHAINPREFIX_HOST_OUT_TEMP`. -/
def CHAINPREFIX_HOST_OUT_TEMP : Char := 'P'

/-- `PRINT_ROOT_CHAIN(buf, prefix, ifname)`: `"libvirt-%c-%s"`. -/
def PRINT_ROOT_CHAIN (pfx : Char) (ifname : Str) : Str :=
  "libvirt-".data ++ pfx :: '-' :: ifname

/-- `PRINT_CHAIN(buf, prefix, ifname, suffix)`: `"%c-%s-%s"`. -/
def PRINT_CHAIN (pfx : Char) (ifname : Str) (suffix : Str) : Str :=
  pfx :: '-' :: ifname ++ '-' :: suffix

/-- `PRINT_IPT_ROOT_CHAIN(buf, prefix, ifname)`: `"%c%c-%s"`. -/
def PRINT_IPT_ROOT_CHAIN (p0 p1 : Char) (ifname : Str) : Str :=
  p0 :: p1 :: '-' :: ifname

/-- `IPTABLES_MAX_COMMENT_LENGTH` comes from the nwfilter configuration
header, which is not part of this file; libvirt defines it as 256.  The
theorems below only use that it is a fixed truncation bound. -/
def IPTABLES_MAX_COMMENT_LENGTH : Nat := 256

/-- The single-quote escape emitted by `printCommentVar` for a `'` in the
comment text: close quote, backslash-escaped quote, reopen quote. -/
def escQuoteChar (c : Char) : Str :=
  if c = '\'' then '\'' :: '\\' :: '\'' :: '\'' :: [] else [c]

/-- `printCommentVar(dest, buf)`: emits `comment='<escaped, truncated>'`
followed by the command separator (a newline).  The comment is truncated
to `IPTABLES_MAX_COMMENT_LENGTH` characters and every single quote is
replaced by `'\''`. -/
def printCommentVar (buf : Str) : Str :=
  "comment='".data ++
    (buf.take IPTABLES_MAX_COMMENT_LENGTH).flatMap escQuoteChar ++
    '\'' :: '\n' :: []

/-- A miniature POSIX-shell word scanner: `scanWord inQuote cs` consumes a
shell word (a mix of single-quoted spans and backslash escapes), returning
the literal value of the word and the unconsumed rest.  The word ends at
an unquoted newline.  This is the backend's own reading of the fragment
emitted by `printCommentVar`. -/
def scanWord : Bool → Str → Option (Str × Str)
  | true, [] => none
  | true, '\'' :: rest => scanWord false rest
  | true, c :: rest => (scanWord true rest).map (fun vr => (c :: vr.1, vr.2))
  | false, [] => some ([], [])
  | false, '\'' :: rest => scanWord true rest
  | false, '\\' :: [] => none
  | false, '\\' :: d :: rest2 =>
    (scanWord false rest2).map (fun vr => (d :: vr.1, vr.2))
  | false, '\n' :: rest => some ([], '\n' :: rest)
  | false, c :: rest => (scanWord false rest).map (fun vr => (c :: vr.1, vr.2))

/-- Scanning the escaped body while inside the opening quote recovers the
original characters, for any comment content. -/
theorem scanWord_escBody (cs : Str) :
    scanWord true (cs.flatMap escQuoteChar ++ '\'' :: '\n' :: []) =
      some (cs, ['\n']) := by
  induction cs with
  | nil =>
    simp [scanWord]
  | cons c rest ih =>
    by_cases hc : c = '\''
    · subst hc
      simp only [escQuoteChar, if_pos rfl, List.flatMap_cons, List.cons_append,
        List.append_assoc, scanWord]
      simpa using ih
    · simp [escQuoteChar, hc, scanWord, ih]

/-- The comment fragment emitted for any comment string, read back with the
shell's own quoting rules, yields exactly the comment truncated to
`IPTABLES_MAX_COMMENT_LENGTH`; the quoting can never be escaped by comment
content.  (Claim C10.) -/
theorem printCommentVar_safe (buf : Str) :
    (printCommentVar buf).take 9 = "comment='".data ∧
    scanWord false ((printCommentVar buf).drop 8) =
      some (buf.take IPTABLES_MAX_COMMENT_LENGTH, ['\n']) := by
  have hsplit : printCommentVar buf =
      "comment=".data ++
        ('\'' :: ((buf.take IPTABLES_MAX_COMMENT_LENGTH).flatMap escQuoteChar ++
          '\'' :: '\n' :: [])) := by
    simp [printCommentVar]
  constructor
  · rw [hsplit]
    rfl
  · rw [hsplit]
    have h8 : (8 : Nat) = ("comment=".data).length := by decide
    rw [h8, List.drop_left]
    simp [scanWord, scanWord_escBody]

/-! ## Data model: rules and rule instances -/

/-- The protocols handled by the driver's compilers that this embedding
covers: the iptables protocols of `_iptablesCreateRuleInstance` (IPv4 and
IPv6 variants) and the ebtables protocols `MAC` and `NONE`. -/
inductive Protocol
  | tcp | tcpV6 | udp | udpV6 | udplite | udpliteV6 | esp | espV6
  | ah | ahV6 | sctp | sctpV6 | icmp | icmpv6 | igmp | all | allV6
  | mac | none_
  deriving DecidableEq, Repr

/-- Rule direction (`rule->tt`). -/
inductive RuleDirection
  | dirIn | dirOut | dirInOut
  deriving DecidableEq, Repr

/-- Rule action (`rule->action`). -/
inductive RuleAction
  | drop | accept | reject | return_ | continue_
  deriving DecidableEq, Repr

/-- Modelled from the spec: `virNWFilterJumpTargetTypeToString` lives in the
configuration module (not part of this file); each action maps to its own
named backend target. -/
def virNWFilterJumpTargetTypeToString : RuleAction → Str
  | .drop => "DROP".data
  | .accept => "ACCEPT".data
  | .reject => "REJECT".data
  | .return_ => "RETURN".data
  | .continue_ => "CONTINUE".data

/-- A header-field matcher that is present in a rule: its optional negation
flag and its rendered textual value (variable resolution and datatype
rendering are performed by external collaborators, so the value is carried
already rendered). -/
structure MatchItem where
  neg : Bool
  val : Str
  deriving DecidableEq, Repr

/-- `ENTRY_GET_NEG_SIGN`: `"!"` when the matcher is negated, else `""`. -/
def ENTRY_GET_NEG_SIGN (m : MatchItem) : Str :=
  if m.neg then "!".data else "".data

/-- The ipset flags word (`item->u.ipset`): number of flags and the bitmask
rendered direction-dependently by `_printDataType`. -/
structure IpsetFlags where
  numFlags : Nat
  flags : Nat
  deriving DecidableEq, Repr

/-- `DATATYPE_IPSETFLAGS` rendering from `_printDataType`: one `src`/`dst`
word per flag bit, swapped when the direction is inbound. -/
def renderIpsetFlags (f : IpsetFlags) (directionIn : Bool) : Str :=
  ((List.range f.numFlags).map (fun ctr =>
      (if ctr = 0 then "".data else ",".data) ++
      (if f.flags / 2 ^ ctr % 2 = 1 then
         (if directionIn then "dst".data else "src".data)
       else
         (if directionIn then "src".data else "dst".data)))).flatten

/-- The shared IP-header matcher block (`ipHdrDataDef`). -/
structure IpHdrData where
  dataIPSet : Option MatchItem
  dataIPSetFlags : Option IpsetFlags
  dataSrcIPAddr : Option MatchItem
  dataSrcIPMask : Option MatchItem
  dataSrcIPFrom : Option MatchItem
  dataSrcIPTo : Option MatchItem
  dataDstIPAddr : Option MatchItem
  dataDstIPMask : Option MatchItem
  dataDstIPFrom : Option MatchItem
  dataDstIPTo : Option MatchItem
  dataDSCP : Option MatchItem
  dataConnlimitAbove : Option MatchItem
  dataComment : Option Str
  deriving DecidableEq, Repr

/-- The port matcher block (`portDataDef`). -/
structure PortData where
  dataSrcPortStart : Option MatchItem
  dataSrcPortEnd : Option MatchItem
  dataDstPortStart : Option MatchItem
  dataDstPortEnd : Option MatchItem
  deriving DecidableEq, Repr

/-- The ethernet-header matcher block (`ethHdrDataDef`). -/
structure EthHdrData where
  dataSrcMACAddr : Option MatchItem
  dataSrcMACMask : Option MatchItem
  dataDstMACAddr : Option MatchItem
  dataDstMACMask : Option MatchItem
  deriving DecidableEq, Repr

/-- TCP flags matcher: negation plus the `mask flags` text rendered by the
external `virNWFilterPrintTCPFlags`. -/
structure TcpFlagsItem where
  neg : Bool
  rendered : Str
  deriving DecidableEq, Repr

/-- An abstract filtering rule (`virNWFilterRuleDef`), flattened over the
per-protocol union: each protocol's compiler case reads only the fields the
corresponding C union member has.  `stateMatchFlags` carries the rendered
`printStateMatchFlags` text when `IPTABLES_STATE_FLAGS` bits are present. -/
structure NWRule where
  prtclType : Protocol
  tt : RuleDirection
  action : RuleAction
  flagNoStateMatch : Bool
  stateMatchFlags : Option Str
  dataSrcMACAddr : Option MatchItem
  ethHdr : EthHdrData
  dataProtocolID : Option MatchItem
  ipHdr : IpHdrData
  portData : PortData
  dataTCPFlags : Option TcpFlagsItem
  dataTCPOption : Option MatchItem
  dataICMPType : Option MatchItem
  dataICMPCode : Option MatchItem
  deriving DecidableEq, Repr

/-- Modelled from the spec: `virNWFilterRuleIsProtocolEthernet` (from the
configuration module) — the bridge-layer (L2) protocol tags. -/
def virNWFilterRuleIsProtocolEthernet (r : NWRule) : Bool :=
  match r.prtclType with
  | .mac | .none_ => true
  | _ => false

/-- Modelled from the spec: `virNWFilterRuleIsProtocolIPv4`. -/
def virNWFilterRuleIsProtocolIPv4 (r : NWRule) : Bool :=
  match r.prtclType with
  | .tcp | .udp | .udplite | .esp | .ah | .sctp | .icmp | .igmp | .all => true
  | _ => false

/-- Modelled from the spec: `virNWFilterRuleIsProtocolIPv6`. -/
def virNWFilterRuleIsProtocolIPv6 (r : NWRule) : Bool :=
  match r.prtclType with
  | .tcpV6 | .udpV6 | .udpliteV6 | .espV6 | .ahV6 | .sctpV6 | .icmpv6
  | .allV6 => true
  | _ => false

/-- A rule instance (`virNWFilterRuleInst`): the rule plus its destination
chain name, the chain's priority and the rule's own priority. -/
structure RuleInst where
  ruleDef : NWRule
  chainSuffix : Str
  chainPriority : Int
  priority : Int
  deriving DecidableEq, Repr

/-- Modelled from the spec: the chain-suffix enumeration's string for
`VIR_NWFILTER_CHAINSUFFIX_ROOT`. -/
def virNWFilterChainSuffixRoot : Str := "root".data

/-! ## Priority/order comparators (claim C2) -/

/-- The script commands emitted by the shell-script execution backend, at
the granularity the apply/teardown properties need: each command names a
backend tool and the chain(s) it creates, flushes, deletes, renames, links
or unlinks.  `collectRmChains` stands for the
`collect_chains`/`rm_chains` shell functions: it flushes and deletes every
chain reachable from the given root chains whose name starts with one of
the given prefix letters followed by a dash. -/
inductive Tool
  | ebt | ipt | ip6t
  deriving DecidableEq, Repr

inductive ScriptCmd
  | setShellVar (t : Tool)
  | newChain (t : Tool) (chain : Str)
  | flushChain (t : Tool) (chain : Str)
  | deleteChain (t : Tool) (chain : Str)
  | renameChain (t : Tool) (oldName newName : Str)
  | appendRule (t : Tool) (chain : Str) (body : Str)
  | insertBaseJump (t : Tool) (syschain : Str) (pos : Nat) (target : Str)
  | deleteRuleAt (t : Tool) (syschain : Str)
  | deleteJump (t : Tool) (chain : Str) (target : Str)
  | collectRmChains (t : Tool) (prefixes : List Char) (roots : List Str)
  deriving DecidableEq, Repr

/-- An `ebiptablesRuleInst`: a generated command block (here: the ebtables
temporary sub-chain creation commands) with the protocol chain it needs and
its scheduling priority. -/
structure EbiptablesRuleInst where
  commandTemplate : List ScriptCmd
  neededProtocolChain : Str
  priority : Int
  deriving DecidableEq, Repr

/-- `ebiptablesRuleOrderSort`: root-chain items first, then ascending
priority (signed difference). -/
def ebiptablesRuleOrderSort (a b : EbiptablesRuleInst) : Int :=
  let root := virNWFilterChainSuffixRoot
  if a.neededProtocolChain = root then
    if b.neededProtocolChain = root then a.priority - b.priority
    else -1
  else
    if b.neededProtocolChain = root then 1
    else a.priority - b.priority

/-- `virNWFilterRuleInstSort`: the same order over rule instances, keyed on
`chainSuffix`. -/
def virNWFilterRuleInstSort (a b : RuleInst) : Int :=
  let root := virNWFilterChainSuffixRoot
  if a.chainSuffix = root then
    if b.chainSuffix = root then a.priority - b.priority
    else -1
  else
    if b.chainSuffix = root then 1
    else a.priority - b.priority

/-- A list is sorted with respect to an integer comparator when every
earlier element compares `≤ 0` against every later element — the
postcondition `qsort` establishes for a consistent comparator. -/
def SortedBy {α : Type} (cmp : α → α → Int) (l : List α) : Prop :=
  ∀ i j : Fin l.length, (i : Nat) < (j : Nat) → cmp (l.get i) (l.get j) ≤ 0

/-- C2: in the command ordering used by one apply cycle, root-chain items
sort before all other items and the remaining items sort by ascending
priority; the comparators return negative/zero/positive by root-chain
membership first and then the signed priority difference. -/
theorem ruleInstSort_ordering
    (l : List RuleInst)
    (hbound : ∀ r ∈ l, -1000 ≤ r.priority ∧ r.priority ≤ 1000)
    (hs : SortedBy virNWFilterRuleInstSort l) :
    (∀ i j : Fin l.length, (i : Nat) < (j : Nat) →
        (l.get j).chainSuffix = virNWFilterChainSuffixRoot →
        (l.get i).chainSuffix = virNWFilterChainSuffixRoot) ∧
    (∀ i j : Fin l.length, (i : Nat) < (j : Nat) →
        (l.get i).chainSuffix ≠ virNWFilterChainSuffixRoot →
        (l.get j).chainSuffix ≠ virNWFilterChainSuffixRoot →
        (l.get i).priority ≤ (l.get j).priority) ∧
    (∀ a b : RuleInst,
        (a.chainSuffix = virNWFilterChainSuffixRoot →
          b.chainSuffix ≠ virNWFilterChainSuffixRoot →
          virNWFilterRuleInstSort a b = -1) ∧
        (a.chainSuffix ≠ virNWFilterChainSuffixRoot →
          b.chainSuffix = virNWFilterChainSuffixRoot →
          virNWFilterRuleInstSort a b = 1) ∧
        ((a.chainSuffix = virNWFilterChainSuffixRoot ↔
            b.chainSuffix = virNWFilterChainSuffixRoot) →
          virNWFilterRuleInstSort a b = a.priority - b.priority)) ∧
    (∀ a b : EbiptablesRuleInst,
        (a.neededProtocolChain = virNWFilterChainSuffixRoot →
          b.neededProtocolChain ≠ virNWFilterChainSuffixRoot →
          ebiptablesRuleOrderSort a b = -1) ∧
        (a.neededProtocolChain ≠ virNWFilterChainSuffixRoot →
          b.neededProtocolChain = virNWFilterChainSuffixRoot →
          ebiptablesRuleOrderSort a b = 1) ∧
        ((a.neededProtocolChain = virNWFilterChainSuffixRoot ↔
            b.neededProtocolChain = virNWFilterChainSuffixRoot) →
          ebiptablesRuleOrderSort a b = a.priority - b.priority)) := by
  refine ⟨?_, ?_, ?_, ?_⟩
  · intro i j hij hj
    by_contra hi
    have := hs i j hij
    rw [virNWFilterRuleInstSort] at this
    simp only [hj, hi, if_true, if_false, ite_true, ite_false] at this
    omega
  · intro i j hij hi hj
    have := hs i j hij
    rw [virNWFilterRuleInstSort] at this
    simp only [hi, hj, if_false, ite_false] at this
    omega
  · intro a b
    refine ⟨fun ha hb => ?_, fun ha hb => ?_, fun hiff => ?_⟩
    · simp [virNWFilterRuleInstSort, ha, hb]
    · simp [virNWFilterRuleInstSort, ha, hb]
    · by_cases ha : a.chainSuffix = virNWFilterChainSuffixRoot
      · have hb := hiff.mp ha
        simp [virNWFilterRuleInstSort, ha, hb]
      · have hb : b.chainSuffix ≠ virNWFilterChainSuffixRoot :=
          fun hb => ha (hiff.mpr hb)
        simp [virNWFilterRuleInstSort, ha, hb]
  · intro a b
    refine ⟨fun ha hb => ?_, fun ha hb => ?_, fun hiff => ?_⟩
    · simp [ebiptablesRuleOrderSort, ha, hb]
    · simp [ebiptablesRuleOrderSort, ha, hb]
    · by_cases ha : a.neededProtocolChain = virNWFilterChainSuffixRoot
      · have hb := hiff.mp ha
        simp [ebiptablesRuleOrderSort, ha, hb]
      · have hb : b.neededProtocolChain ≠ virNWFilterChainSuffixRoot :=
          fun hb => ha (hiff.mpr hb)
        simp [ebiptablesRuleOrderSort, ha, hb]

/-- A minimal concrete rule used to instantiate theorems with hypotheses. -/
def sampleRule : NWRule where
  prtclType := .tcp
  tt := .dirOut
  action := .accept
  flagNoStateMatch := false
  stateMatchFlags := none
  dataSrcMACAddr := none
  ethHdr := ⟨none, none, none, none⟩
  dataProtocolID := none
  ipHdr := ⟨none, none, none, none, none, none, none, none, none, none,
            none, none, none⟩
  portData := ⟨none, none, none, none⟩
  dataTCPFlags := none
  dataTCPOption := none
  dataICMPType := none
  dataICMPCode := none

/-- A concrete sorted rule-instance list for the C2 witness. -/
def sampleSortedInsts : List RuleInst :=
  [⟨sampleRule, "root".data, -500, -300⟩,
   ⟨sampleRule, "ipv4".data, -500, -100⟩,
   ⟨sampleRule, "ipv4".data, -500, 200⟩]

/-- Witness for C2 at a concrete sorted list. -/
theorem ruleInstSort_ordering_witness :
    (∀ r ∈ sampleSortedInsts, -1000 ≤ r.priority ∧ r.priority ≤ 1000) ∧
    SortedBy virNWFilterRuleInstSort sampleSortedInsts ∧
    (∀ i j : Fin sampleSortedInsts.length, (i : Nat) < (j : Nat) →
        (sampleSortedInsts.get i).chainSuffix ≠ virNWFilterChainSuffixRoot →
        (sampleSortedInsts.get j).chainSuffix ≠ virNWFilterChainSuffixRoot →
        (sampleSortedInsts.get i).priority ≤
          (sampleSortedInsts.get j).priority) := by
  have h1 : ∀ r ∈ sampleSortedInsts, -1000 ≤ r.priority ∧ r.priority ≤ 1000 := by
    decide
  have h2 : SortedBy virNWFilterRuleInstSort sampleSortedInsts := by
    intro i j hij
    fin_cases i <;> fin_cases j <;> simp_all <;> decide
  exact ⟨h1, h2, (ruleInstSort_ordering sampleSortedInsts h1 h2).2.1⟩

/-! ## Priority raising and chain/rule interleaving (claim C3) -/

/-- The priority-raising step of `ebiptablesApplyNewRules`: a rule whose
chain priority exceeds its own priority is raised to the chain priority.
The root-chain exception is literally `!strstr("root", chainSuffix)`:
`strstr` returns non-NULL exactly when the suffix occurs as a substring of
`"root"`. -/
def adjustRulePriority (r : RuleInst) : RuleInst :=
  if r.chainPriority > r.priority ∧ ¬ r.chainSuffix <:+: "root".data then
    { r with priority := r.chainPriority }
  else r

/-- The protocol names that may prefix a non-root chain suffix (the
`chain` attribute of a filter is validated against this set by the parser,
an external collaborator). -/
def chainNamePrefixes : List Str :=
  ["mac".data, "vlan".data, "stp".data, "arp".data, "rarp".data,
   "ipv4".data, "ipv6".data]

/-- A chain suffix the policy source can actually produce: `"root"` itself
or a name starting with one of the protocol names. -/
def ValidChainSuffix (s : Str) : Prop :=
  s = "root".data ∨ ∃ p ∈ chainNamePrefixes, p <+: s

/-- On valid chain suffixes, the `strstr("root", suffix)` test of the
priority-raising step coincides with equality to `"root"`. -/
theorem validChainSuffix_substr_iff (s : Str) (h : ValidChainSuffix s) :
    s <:+: "root".data ↔ s = "root".data := by
  constructor
  · intro hinf
    rcases h with h | ⟨p, hp, hpre⟩
    · exact h
    · exfalso
      have hpinf : p <:+: "root".data := hpre.isInfix.trans hinf
      fin_cases hp <;> revert hpinf <;> decide
  · intro h
    rw [h]

/-- The interleaving loop of `ebiptablesApplyNewRules` (its ebtables part):
before each ethernet rule's commands, every pending sub-chain-creation
block whose priority does not exceed the rule's priority is emitted;
the remaining blocks are emitted at the end. -/
def applyInterleave :
    List EbiptablesRuleInst → List RuleInst →
      List (EbiptablesRuleInst ⊕ RuleInst)
  | chains, [] => chains.map Sum.inl
  | chains, r :: rs =>
    if virNWFilterRuleIsProtocolEthernet r.ruleDef then
      (chains.takeWhile (fun c => c.priority ≤ r.priority)).map Sum.inl ++
        Sum.inr r ::
          applyInterleave
            (chains.dropWhile (fun c => c.priority ≤ r.priority)) rs
    else applyInterleave chains rs

/-- In a priority-sorted chain list, a chain whose priority is within the
bound is kept by `takeWhile`. -/
theorem mem_takeWhile_of_sorted
    (chains : List EbiptablesRuleInst) (p : Int) (c : EbiptablesRuleInst)
    (hsort : chains.Pairwise (fun a b => a.priority ≤ b.priority))
    (hc : c ∈ chains) (hcp : c.priority ≤ p) :
    c ∈ chains.takeWhile (fun c => decide (c.priority ≤ p)) := by
  induction chains with
  | nil => cases hc
  | cons hd tl ih =>
    rcases List.mem_cons.mp hc with rfl | hc
    · simp [List.takeWhile_cons, hcp]
    · by_cases hhd : hd.priority ≤ p
      · have := ih (List.Pairwise.of_cons hsort) hc
        simp [List.takeWhile_cons, hhd, this]
      · exfalso
        have hle : hd.priority ≤ c.priority :=
          (List.pairwise_cons.mp hsort).1 c hc
        omega

/-- Every ethernet rule of the input occurs in the interleaved output. -/
theorem mem_inr_applyInterleave
    (rules : List RuleInst) (chains : List EbiptablesRuleInst)
    (r : RuleInst) (hr : r ∈ rules)
    (heth : virNWFilterRuleIsProtocolEthernet r.ruleDef = true) :
    Sum.inr r ∈ applyInterleave chains rules := by
  induction rules generalizing chains with
  | nil => cases hr
  | cons hd tl ih =>
    rcases List.mem_cons.mp hr with rfl | hr
    · rw [applyInterleave, if_pos heth]
      exact List.mem_append_right _ (List.mem_cons_self _ _)
    · by_cases hhd : virNWFilterRuleIsProtocolEthernet hd.ruleDef
      · rw [applyInterleave, if_pos hhd]
        exact List.mem_append_right _ (List.mem_cons_of_mem _ (ih _ hr))
      · rw [applyInterleave, if_neg hhd]
        exact ih _ hr

/-- In the interleaved output, a needed chain block whose priority does not
exceed an ethernet rule's priority is emitted strictly before that rule,
provided the chain blocks are sorted ascending by priority. -/
theorem applyInterleave_chain_before_rule
    (rules : List RuleInst) (chains : List EbiptablesRuleInst)
    (r : RuleInst) (c : EbiptablesRuleInst)
    (hsort : chains.Pairwise (fun a b => a.priority ≤ b.priority))
    (hr : r ∈ rules)
    (heth : virNWFilterRuleIsProtocolEthernet r.ruleDef = true)
    (hc : c ∈ chains) (hcp : c.priority ≤ r.priority) :
    ∃ l₁ l₂, applyInterleave chains rules = l₁ ++ Sum.inr r :: l₂ ∧
      Sum.inl c ∈ l₁ := by
  induction rules generalizing chains with
  | nil => cases hr
  | cons hd tl ih =>
    by_cases hhd : virNWFilterRuleIsProtocolEthernet hd.ruleDef
    · rcases List.mem_cons.mp hr with rfl | hr
      · refine ⟨(chains.takeWhile (fun c => c.priority ≤ r.priority)).map
            Sum.inl,
          applyInterleave
            (chains.dropWhile (fun c => c.priority ≤ r.priority)) tl,
          ?_, ?_⟩
        · rw [applyInterleave, if_pos hhd]
        · exact List.mem_map_of_mem Sum.inl
            (mem_takeWhile_of_sorted chains r.priority c hsort hc hcp)
      · have hsplit := List.takeWhile_append_dropWhile
          (p := fun c => decide (c.priority ≤ hd.priority)) (l := chains)
        have hdropsort : (chains.dropWhile
            (fun c => decide (c.priority ≤ hd.priority))).Pairwise
            (fun a b => a.priority ≤ b.priority) :=
          List.Pairwise.sublist (List.dropWhile_sublist _) hsort
        by_cases hcin : c ∈ chains.dropWhile
            (fun c => decide (c.priority ≤ hd.priority))
        · obtain ⟨l₁, l₂, heq, hmem⟩ := ih _ hdropsort hr hcin
          refine ⟨(chains.takeWhile
              (fun c => c.priority ≤ hd.priority)).map Sum.inl ++
              Sum.inr hd :: l₁, l₂, ?_, ?_⟩
          · rw [applyInterleave, if_pos hhd, heq]
            simp
          · simp [hmem]
        · have hctake : c ∈ chains.takeWhile
              (fun c => decide (c.priority ≤ hd.priority)) := by
            have := hsplit ▸ hc
            rcases List.mem_append.mp this with h | h
            · exact h
            · exact absurd h hcin
          obtain ⟨l₁, l₂, heq⟩ := List.append_of_mem
            (mem_inr_applyInterleave tl _ r hr heth)
          refine ⟨(chains.takeWhile
              (fun c => c.priority ≤ hd.priority)).map Sum.inl ++
              Sum.inr hd :: l₁, l₂, ?_, ?_⟩
          · rw [applyInterleave, if_pos hhd, heq]
            simp
          · exact List.mem_append_left _
              (List.mem_map_of_mem Sum.inl hctake)
    · have hr' : r ∈ tl := by
        rcases List.mem_cons.mp hr with rfl | hr'
        · exact absurd heth (by simp_all)
        · exact hr'
      obtain ⟨l₁, l₂, heq, hmem⟩ := ih chains hsort hr' hc
      exact ⟨l₁, l₂, by rw [applyInterleave, if_neg hhd]; exact heq, hmem⟩

/-- C3: a rule whose chain priority exceeds its own priority has its
effective priority raised to the chain priority, except that a rule for the
root chain keeps its own priority; consequently, the sub-chain-creation
block is emitted no later than the first rule command inserting into that
sub-chain. -/
theorem rulePriorityRaise_chainBeforeRule
    (r : RuleInst) (hval : ValidChainSuffix r.chainSuffix) :
    ((r.chainPriority > r.priority → r.chainSuffix ≠ "root".data →
        (adjustRulePriority r).priority = r.chainPriority) ∧
     (r.chainSuffix = "root".data →
        (adjustRulePriority r).priority = r.priority) ∧
     (r.chainPriority ≤ r.priority →
        (adjustRulePriority r).priority = r.priority)) ∧
    (∀ (chains : List EbiptablesRuleInst) (rules : List RuleInst)
        (c : EbiptablesRuleInst),
      chains.Pairwise (fun a b => a.priority ≤ b.priority) →
      r ∈ rules →
      virNWFilterRuleIsProtocolEthernet r.ruleDef = true →
      c ∈ chains → c.priority = r.chainPriority →
      r.chainSuffix ≠ "root".data →
      ∃ l₁ l₂,
        applyInterleave chains (rules.map adjustRulePriority) =
          l₁ ++ Sum.inr (adjustRulePriority r) :: l₂ ∧
        Sum.inl c ∈ l₁) := by
  have hiff := validChainSuffix_substr_iff r.chainSuffix hval
  constructor
  · refine ⟨fun hgt hne => ?_, fun hroot => ?_, fun hle => ?_⟩
    · have hninf : ¬ r.chainSuffix <:+: "root".data :=
        fun h => hne (hiff.mp h)
      rw [adjustRulePriority, if_pos ⟨hgt, hninf⟩]
    · have hinf : r.chainSuffix <:+: "root".data := hiff.mpr hroot
      rw [adjustRulePriority, if_neg (fun h => h.2 hinf)]
    · rw [adjustRulePriority, if_neg (fun h => by omega)]
  · intro chains rules c hsort hr heth hc hcp hne
    have hninf : ¬ r.chainSuffix <:+: "root".data :=
      fun h => hne (hiff.mp h)
    have hle : c.priority ≤ (adjustRulePriority r).priority := by
      by_cases hgt : r.chainPriority > r.priority
      · rw [adjustRulePriority, if_pos ⟨hgt, hninf⟩]
        simp only
        omega
      · rw [adjustRulePriority, if_neg (fun h => hgt h.1)]
        omega
    have heth' : virNWFilterRuleIsProtocolEthernet
        (adjustRulePriority r).ruleDef = true := by
      by_cases hcond : r.chainPriority > r.priority ∧
          ¬ r.chainSuffix <:+: "root".data
      · rw [adjustRulePriority, if_pos hcond]
        exact heth
      · rw [adjustRulePriority, if_neg hcond]
        exact heth
    exact applyInterleave_chain_before_rule (rules.map adjustRulePriority)
      chains (adjustRulePriority r) c hsort
      (List.mem_map_of_mem adjustRulePriority hr) heth' hc hle

/-- Witness for C3 at a concrete rule, chain list and rule list. -/
theorem rulePriorityRaise_chainBeforeRule_witness :
    ValidChainSuffix ("ipv4".data) ∧
    (let r : RuleInst := ⟨{ sampleRule with prtclType := .mac },
       "ipv4".data, -500, -510⟩
     (adjustRulePriority r).priority = -500 ∧
     ∃ l₁ l₂,
       applyInterleave [⟨[], "root".data, -500⟩] [adjustRulePriority r] =
         l₁ ++ Sum.inr (adjustRulePriority r) :: l₂ ∧
       Sum.inl (⟨[], "root".data, -500⟩ : EbiptablesRuleInst) ∈ l₁) := by
  have hval : ValidChainSuffix ("ipv4".data) :=
    Or.inr ⟨"ipv4".data, by decide, by decide⟩
  refine ⟨hval, ?_, ?_⟩
  · exact (rulePriorityRaise_chainBeforeRule
      ⟨{ sampleRule with prtclType := .mac }, "ipv4".data, -500, -510⟩
      hval).1.1 (by decide) (by decide)
  · have h := (rulePriorityRaise_chainBeforeRule
      ⟨{ sampleRule with prtclType := .mac }, "ipv4".data, -500, -510⟩
      hval).2 [⟨[], "root".data, -500⟩]
      [⟨{ sampleRule with prtclType := .mac }, "ipv4".data, -500, -510⟩]
      ⟨[], "root".data, -500⟩
      (by simp) (by simp) (by decide) (by simp) (by decide) (by decide)
    simpa using h

/-! ## The iptables rule compiler (claims C4, C5, C6, C7) -/

/-- The kernel `--ctdir` semantics probe result (`enum ctdirStatus`). -/
inductive CtdirStatus
  | unknown | corrected | old
  deriving DecidableEq, Repr

/-- `2 * 1000000 + 6 * 1000 + 39`: the kernel version (2.6.39) at which the
`--ctdir` polarity was corrected. -/
def KERNEL_VERSION_2_6_39 : Nat := 2 * 1000000 + 6 * 1000 + 39

/-- `ebiptablesDriverProbeCtdir`: the probe input is the running kernel
version as parsed from `uname`, or `none` when `uname` or the version
parse failed. -/
def ebiptablesDriverProbeCtdir (kernelVersion : Option Nat) : CtdirStatus :=
  match kernelVersion with
  | none => .unknown
  | some v => if v ≥ KERNEL_VERSION_2_6_39 then .corrected else .old

/-- `m_state_out_str`. -/
def m_state_out_str : Str := "-m state --state NEW,ESTABLISHED".data

/-- `m_state_in_str`. -/
def m_state_in_str : Str := "-m state --state ESTABLISHED".data

/-- `CMD_EXEC`: the script line evaluating the accumulated command. -/
def CMD_EXEC : Str := "eval res=\\$\\(\"${cmd} 2>&1\"\\)\n".data

/-- `iptablesEnforceDirection`: appends the `--ctdir` qualifier, with the
direction inverted when the probe reported the corrected semantics, and
appends nothing when the probe was inconclusive; `inout` rules get no
qualifier. -/
def iptablesEnforceDirection (ctdir : CtdirStatus) (directionIn : Bool)
    (rule : NWRule) : Str :=
  let emit : Bool → Str := fun d =>
    if rule.tt ≠ RuleDirection.dirInOut then
      " -m conntrack --ctdir ".data ++
        (if d then "Original".data else "Reply".data)
    else "".data
  match ctdir with
  | .unknown => "".data
  | .corrected => emit (!directionIn)
  | .old => emit directionIn

/-- `iptablesHandleSrcMacAddr`: the source-MAC matcher is skipped for the
inbound direction; otherwise a `-m mac --mac-source` clause is produced.
Returns the appended text and the `srcmacskipped` flag. -/
def iptablesHandleSrcMacAddr (srcMacAddr : Option MatchItem)
    (directionIn : Bool) : Str × Bool :=
  match srcMacAddr with
  | none => ("".data, false)
  | some m =>
    if directionIn then ("".data, true)
    else
      (" -m mac ".data ++ ENTRY_GET_NEG_SIGN m ++ " --mac-source ".data ++
        m.val, false)

/-- `iptablesHandleIpHdr`: renders the shared IP-header matchers.  Returns
the text appended to the command buffer, the text appended after the state
match, the comment-variable prefix, and the `skipRule`/`skipMatch` flags. -/
def iptablesHandleIpHdr (ipHdr : IpHdrData) (directionIn : Bool) :
    Str × Str × Str × Bool × Bool :=
  let src := if directionIn then "--destination".data else "--source".data
  let dst := if directionIn then "--source".data else "--destination".data
  let srcrange := if directionIn then "--dst-range".data else "--src-range".data
  let dstrange := if directionIn then "--src-range".data else "--dst-range".data
  let ipsetAdd :=
    match ipHdr.dataIPSet, ipHdr.dataIPSetFlags with
    | some s, some f =>
      " -m set --match-set \"".data ++ s.val ++ "\" ".data ++
        renderIpsetFlags f directionIn
    | _, _ => "".data
  let srcAdd :=
    match ipHdr.dataSrcIPAddr with
    | some a =>
      " ".data ++ ENTRY_GET_NEG_SIGN a ++ " ".data ++ src ++ " ".data ++
        a.val ++
        (match ipHdr.dataSrcIPMask with
         | some msk => "/".data ++ msk.val
         | none => "".data)
    | none =>
      match ipHdr.dataSrcIPFrom with
      | some f =>
        " -m iprange ".data ++ ENTRY_GET_NEG_SIGN f ++ " ".data ++
          srcrange ++ " ".data ++ f.val ++
          (match ipHdr.dataSrcIPTo with
           | some t => "-".data ++ t.val
           | none => "".data)
      | none => "".data
  let dstAdd :=
    match ipHdr.dataDstIPAddr with
    | some a =>
      " ".data ++ ENTRY_GET_NEG_SIGN a ++ " ".data ++ dst ++ " ".data ++
        a.val ++
        (match ipHdr.dataDstIPMask with
         | some msk => "/".data ++ msk.val
         | none => "".data)
    | none =>
      match ipHdr.dataDstIPFrom with
      | some f =>
        " -m iprange ".data ++ ENTRY_GET_NEG_SIGN f ++ " ".data ++
          dstrange ++ " ".data ++ f.val ++
          (match ipHdr.dataDstIPTo with
           | some t => "-".data ++ t.val
           | none => "".data)
      | none => "".data
  let dscpAdd :=
    match ipHdr.dataDSCP with
    | some d => " -m dscp ".data ++ ENTRY_GET_NEG_SIGN d ++ " --dscp ".data ++
        d.val
    | none => "".data
  let connlimit :=
    match ipHdr.dataConnlimitAbove with
    | some c =>
      if directionIn then ("".data, true, false)
      else
        (" -m connlimit ".data ++ ENTRY_GET_NEG_SIGN c ++
          " --connlimit-above ".data ++ c.val, false, true)
    | none => ("".data, false, false)
  let commentParts :=
    match ipHdr.dataComment with
    | some cmt =>
      (printCommentVar cmt, " -m comment --comment \"$comment\"".data)
    | none => ("".data, "".data)
  (srcAdd ++ dstAdd ++ dscpAdd,
   ipsetAdd ++ connlimit.1 ++ commentParts.2,
   commentParts.1,
   connlimit.2.1,
   connlimit.2.2)

/-- `iptablesHandlePortData`: source/destination port clauses with the
direction-dependent swap. -/
def iptablesHandlePortData (portData : PortData) (directionIn : Bool) : Str :=
  let sport := if directionIn then "--dport".data else "--sport".data
  let dport := if directionIn then "--sport".data else "--dport".data
  (match portData.dataSrcPortStart with
   | some ps =>
     " ".data ++ ENTRY_GET_NEG_SIGN ps ++ " ".data ++ sport ++ " ".data ++
       ps.val ++
       (match portData.dataSrcPortEnd with
        | some pe => ":".data ++ pe.val
        | none => "".data)
   | none => "".data) ++
  (match portData.dataDstPortStart with
   | some ps =>
     " ".data ++ ENTRY_GET_NEG_SIGN ps ++ " ".data ++ dport ++ " ".data ++
       ps.val ++
       (match portData.dataDstPortEnd with
        | some pe => ":".data ++ pe.val
        | none => "".data)
   | none => "".data)

/-- A compiled command template together with the chain it appends to. -/
structure RuleTemplate where
  chain : Str
  text : Str
  deriving DecidableEq, Repr

/-- The per-protocol state accumulated by `_iptablesCreateRuleInstance`
before its common epilogue. -/
structure IptBodyParts where
  protoStr : Str
  body : Str
  srcMacSkipped : Bool
  skipRule : Bool
  skipMatch : Bool
  hasICMPType : Bool
  afterStateMatch : Str
  commentPrefix : Str
  deriving DecidableEq, Repr

/-- The common tail of `_iptablesCreateRuleInstance`: the degenerate-rule
check, target selection (with `skipMatch = defMatch` for non-accept
actions), the optional state match, the `--ctdir` qualifier, the deferred
after-state text and the jump, assembled into the final template. -/
def iptRuleEpilogue (ctdir : CtdirStatus) (directionIn : Bool) (chain : Str)
    (rule : NWRule) (matchStr : Option Str) (defMatch : Bool)
    (acceptTarget : Str) (parts : IptBodyParts) : List RuleTemplate :=
  if (parts.srcMacSkipped ∧ parts.body = "".data) ∨ parts.skipRule then []
  else
    let target :=
      if rule.action = RuleAction.accept then acceptTarget
      else virNWFilterJumpTargetTypeToString rule.action
    let skipMatch :=
      if rule.action = RuleAction.accept then parts.skipMatch else defMatch
    let matchAdd :=
      match matchStr with
      | some m => if ¬ skipMatch then " ".data ++ m else "".data
      | none => "".data
    let ctdirAdd :=
      if defMatch ∧ matchStr.isSome ∧ ¬ skipMatch ∧ ¬ parts.hasICMPType then
        iptablesEnforceDirection ctdir directionIn rule
      else "".data
    let text :=
      "cmd='$IPT -A ".data ++ chain ++ parts.protoStr ++ parts.body ++
        matchAdd ++ ctdirAdd ++ parts.afterStateMatch ++
        " -j ".data ++ target ++ "'\n".data ++ CMD_EXEC
    [⟨chain, parts.commentPrefix ++ text⟩]

/-- `_iptablesCreateRuleInstance`: compiles one leg of a rule into one
iptables/ip6tables command template.  The source calls the source-MAC and
IP-header handlers inside every protocol case with identical arguments;
they are hoisted before the protocol match here.  The `ctdir` argument
stands for the process-wide probe result `iptables_ctdir_corrected`.
Returns `none` on a compile error (unsupported protocol). -/
def _iptablesCreateRuleInstance (ctdir : CtdirStatus) (directionIn : Bool)
    (p0 p1 : Char) (rule : NWRule) (ifname : Str) (matchStr : Option Str)
    (defMatch : Bool) (acceptTarget : Str) (maySkipICMP : Bool) :
    Option (List RuleTemplate) :=
  let chain := PRINT_IPT_ROOT_CHAIN p0 p1 ifname
  let sm := iptablesHandleSrcMacAddr rule.dataSrcMACAddr directionIn
  let ip := iptablesHandleIpHdr rule.ipHdr directionIn
  let epi := fun (parts : IptBodyParts) =>
    iptRuleEpilogue ctdir directionIn chain rule matchStr defMatch
      acceptTarget parts
  match rule.prtclType with
  | .tcp | .tcpV6 =>
    let tcpFlagsAdd :=
      match rule.dataTCPFlags with
      | some tf =>
        " ".data ++ (if tf.neg then "!".data else "".data) ++
          " --tcp-flags ".data ++ tf.rendered
      | none => "".data
    let portAdd := iptablesHandlePortData rule.portData directionIn
    let tcpOptAdd :=
      match rule.dataTCPOption with
      | some o =>
        " ".data ++ ENTRY_GET_NEG_SIGN o ++ " --tcp-option ".data ++ o.val
      | none => "".data
    some (epi ⟨" -p tcp".data,
      sm.1 ++ ip.1 ++ tcpFlagsAdd ++ portAdd ++ tcpOptAdd,
      sm.2, ip.2.2.2.1, ip.2.2.2.2, false, ip.2.1, ip.2.2.1⟩)
  | .udp | .udpV6 =>
    let portAdd := iptablesHandlePortData rule.portData directionIn
    some (epi ⟨" -p udp".data, sm.1 ++ ip.1 ++ portAdd,
      sm.2, ip.2.2.2.1, ip.2.2.2.2, false, ip.2.1, ip.2.2.1⟩)
  | .udplite | .udpliteV6 =>
    some (epi ⟨" -p udplite".data, sm.1 ++ ip.1,
      sm.2, ip.2.2.2.1, ip.2.2.2.2, false, ip.2.1, ip.2.2.1⟩)
  | .esp | .espV6 =>
    some (epi ⟨" -p esp".data, sm.1 ++ ip.1,
      sm.2, ip.2.2.2.1, ip.2.2.2.2, false, ip.2.1, ip.2.2.1⟩)
  | .ah | .ahV6 =>
    some (epi ⟨" -p ah".data, sm.1 ++ ip.1,
      sm.2, ip.2.2.2.1, ip.2.2.2.2, false, ip.2.1, ip.2.2.1⟩)
  | .sctp | .sctpV6 =>
    let portAdd := iptablesHandlePortData rule.portData directionIn
    some (epi ⟨" -p sctp".data, sm.1 ++ ip.1 ++ portAdd,
      sm.2, ip.2.2.2.1, ip.2.2.2.2, false, ip.2.1, ip.2.2.1⟩)
  | .icmp | .icmpv6 =>
    let protoStr :=
      if rule.prtclType = Protocol.icmp then " -p icmp".data
      else " -p icmpv6".data
    match rule.dataICMPType with
    | some t =>
      if maySkipICMP then some []
      else
        let parm :=
          if rule.prtclType = Protocol.icmp then "--icmp-type".data
          else "--icmpv6-type".data
        let icmpAdd :=
          " ".data ++ ENTRY_GET_NEG_SIGN t ++ " ".data ++ parm ++
            " ".data ++ t.val ++
            (match rule.dataICMPCode with
             | some c => "/".data ++ c.val
             | none => "".data)
        some (epi ⟨protoStr, sm.1 ++ ip.1 ++ icmpAdd,
          sm.2, ip.2.2.2.1, ip.2.2.2.2, true, ip.2.1, ip.2.2.1⟩)
    | none =>
      some (epi ⟨protoStr, sm.1 ++ ip.1,
        sm.2, ip.2.2.2.1, ip.2.2.2.2, false, ip.2.1, ip.2.2.1⟩)
  | .igmp =>
    some (epi ⟨" -p igmp".data, sm.1 ++ ip.1,
      sm.2, ip.2.2.2.1, ip.2.2.2.2, false, ip.2.1, ip.2.2.1⟩)
  | .all | .allV6 =>
    some (epi ⟨" -p all".data, sm.1 ++ ip.1,
      sm.2, ip.2.2.2.1, ip.2.2.2.2, false, ip.2.1, ip.2.2.1⟩)
  | .mac | .none_ => none

/-- Whether a rule direction counts as `directionIn` for the compiler's
first leg (`tt == IN || tt == INOUT`). -/
def ruleDirectionIn (tt : RuleDirection) : Bool :=
  match tt with
  | .dirIn | .dirInOut => true
  | .dirOut => false

/-- `iptablesCreateRuleInstanceStateCtrl`: the three legs compiled when the
rule carries explicit state-match flags (`IPTABLES_STATE_FLAGS`), with
per-leg creation conditions and explicit match strings. -/
def iptablesCreateRuleInstanceStateCtrl (ctdir : CtdirStatus) (rule : NWRule)
    (ifname : Str) : Option (List RuleTemplate) :=
  let directionIn := ruleDirectionIn rule.tt
  let inout : Bool := rule.tt = RuleDirection.dirInOut
  let hasFlags := rule.stateMatchFlags.isSome
  let create1 : Bool := !(directionIn && !inout && hasFlags)
  let match1 := if create1 && hasFlags then rule.stateMatchFlags else none
  let leg1 :=
    if create1 then
      _iptablesCreateRuleInstance ctdir directionIn 'F' 'J' rule ifname
        match1 false "RETURN".data (directionIn || inout)
    else some []
  match leg1 with
  | none => none
  | some ts1 =>
    let create2 : Bool := !(!directionIn && hasFlags)
    let match2 := if create2 && hasFlags then rule.stateMatchFlags else none
    let leg2 :=
      if create2 then
        _iptablesCreateRuleInstance ctdir (!directionIn) 'F' 'P' rule ifname
          match2 false "ACCEPT".data (!directionIn || inout)
      else some []
    match leg2 with
    | none => none
    | some ts2 =>
      let create3 : Bool := !(directionIn && !inout && hasFlags)
      let match3 :=
        if !(directionIn && !inout) && hasFlags then rule.stateMatchFlags
        else none
      let leg3 :=
        if create3 then
          _iptablesCreateRuleInstance ctdir directionIn 'H' 'J' rule ifname
            match3 false "RETURN".data directionIn
        else some []
      match leg3 with
      | none => none
      | some ts3 => some (ts1 ++ ts2 ++ ts3)

/-- `iptablesCreateRuleInstance`: dispatches to the state-flag variant when
explicit state flags are present, otherwise compiles the three chain legs
with the automatic connection-state match (`NEW,ESTABLISHED` outbound,
`ESTABLISHED` inbound) unless the rule is `inout` or disables state
matching. -/
def iptablesCreateRuleInstance (ctdir : CtdirStatus) (rule : NWRule)
    (ifname : Str) : Option (List RuleTemplate) :=
  if ¬ rule.flagNoStateMatch ∧ rule.stateMatchFlags.isSome then
    iptablesCreateRuleInstanceStateCtrl ctdir rule ifname
  else
    let directionIn := ruleDirectionIn rule.tt
    let inout : Bool := rule.tt = RuleDirection.dirInOut
    let needState : Bool := !inout && !rule.flagNoStateMatch
    let m1 :=
      if needState then
        some (if directionIn then m_state_in_str else m_state_out_str)
      else none
    match _iptablesCreateRuleInstance ctdir directionIn 'F' 'J' rule ifname
        m1 true "RETURN".data (directionIn || inout) with
    | none => none
    | some ts1 =>
      let m2 :=
        if needState then
          some (if directionIn then m_state_out_str else m_state_in_str)
        else none
      match _iptablesCreateRuleInstance ctdir (!directionIn) 'F' 'P' rule
          ifname m2 true "ACCEPT".data (!directionIn || inout) with
      | none => none
      | some ts2 =>
        let m3 :=
          if needState then
            some (if directionIn then m_state_in_str else m_state_out_str)
          else none
        match _iptablesCreateRuleInstance ctdir directionIn 'H' 'J' rule
            ifname m3 true "RETURN".data directionIn with
        | none => none
        | some ts3 => some (ts1 ++ ts2 ++ ts3)

/-! ## The ebtables rule compiler (claim C8) -/

/-- `ebtablesHandleEthHdr`: MAC source/destination clauses, with `-s`/`-d`
swapped when compiling the reversed leg. -/
def ebtablesHandleEthHdr (ethHdr : EthHdrData) (reverse : Bool) : Str :=
  (match ethHdr.dataSrcMACAddr with
   | some m =>
     " ".data ++ (if reverse then "-d".data else "-s".data) ++ " ".data ++
       ENTRY_GET_NEG_SIGN m ++ " ".data ++ m.val ++
       (match ethHdr.dataSrcMACMask with
        | some msk => "/".data ++ msk.val
        | none => "".data)
   | none => "".data) ++
  (match ethHdr.dataDstMACAddr with
   | some m =>
     " ".data ++ (if reverse then "-s".data else "-d".data) ++ " ".data ++
       ENTRY_GET_NEG_SIGN m ++ " ".data ++ m.val ++
       (match ethHdr.dataDstMACMask with
        | some msk => "/".data ++ msk.val
        | none => "".data)
   | none => "".data)

/-- `ebtablesCreateRuleInstance`: compiles one rule into one ebtables
command template, for the bridge-layer protocols this embedding covers
(`MAC` and `NONE`; the other protocols of the source's switch are outside
the embedded protocol enumeration, and protocols not in the switch return
an error).  A `reject` action is downgraded to the `DROP` target. -/
def ebtablesRuleBody (chain : Str) (rule : NWRule) (reverse : Bool) :
    Option Str :=
  match rule.prtclType with
  | .mac =>
    some ("cmd='$EBT -t nat -A ".data ++ chain ++
      ebtablesHandleEthHdr rule.ethHdr reverse ++
      (match rule.dataProtocolID with
       | some p =>
         " -p ".data ++ ENTRY_GET_NEG_SIGN p ++ " ".data ++ p.val
       | none => "".data))
  | .none_ => some ("cmd='$EBT -t nat -A ".data ++ chain)
  | _ => none

def ebtablesCreateRuleInstance (chainPrefix : Char) (chainSuffix : Str)
    (rule : NWRule) (ifname : Str) (reverse : Bool) : Option RuleTemplate :=
  let chain :=
    if chainSuffix = virNWFilterChainSuffixRoot then
      PRINT_ROOT_CHAIN chainPrefix ifname
    else PRINT_CHAIN chainPrefix ifname chainSuffix
  match ebtablesRuleBody chain rule reverse with
  | none => none
  | some b =>
    let target :=
      match rule.action with
      | .reject => virNWFilterJumpTargetTypeToString RuleAction.drop
      | a => virNWFilterJumpTargetTypeToString a
    some ⟨chain, b ++ " -j ".data ++ target ++ "'\n".data ++ CMD_EXEC⟩

/-- `ebiptablesCreateRuleInstance`: per-rule dispatch — ethernet rules go
to the ebtables compiler (one leg per direction, into the temporary chain
generation), IP rules to the iptables compiler. -/
def ebiptablesCreateRuleInstance (ctdir : CtdirStatus) (chainSuffix : Str)
    (rule : NWRule) (ifname : Str) : Option (List RuleTemplate) :=
  if virNWFilterRuleIsProtocolEthernet rule then
    let outLeg :=
      if rule.tt = RuleDirection.dirOut ∨ rule.tt = RuleDirection.dirInOut
      then
        (ebtablesCreateRuleInstance CHAINPREFIX_HOST_IN_TEMP chainSuffix
          rule ifname (rule.tt = RuleDirection.dirInOut)).map (fun t => [t])
      else some []
    match outLeg with
    | none => none
    | some ts1 =>
      let inLeg :=
        if rule.tt = RuleDirection.dirIn ∨ rule.tt = RuleDirection.dirInOut
        then
          (ebtablesCreateRuleInstance CHAINPREFIX_HOST_OUT_TEMP chainSuffix
            rule ifname false).map (fun t => [t])
        else some []
      match inLeg with
      | none => none
      | some ts2 => some (ts1 ++ ts2)
  else
    if virNWFilterRuleIsProtocolIPv6 rule then
      iptablesCreateRuleInstance ctdir rule ifname
    else if virNWFilterRuleIsProtocolIPv4 rule then
      iptablesCreateRuleInstance ctdir rule ifname
    else none

/-! ## Claim theorems about the compilers -/

/-- C5: the `--ctdir` qualifier is omitted entirely when the kernel version
could not be determined; when the probe reported the corrected (>= 2.6.39)
semantics the Original/Reply polarity is inverted, and with the old
semantics it is kept as-is. -/
theorem ctdirProbe_enforceDirection (directionIn : Bool) (rule : NWRule)
    (hne : rule.tt ≠ RuleDirection.dirInOut) :
    (ebiptablesDriverProbeCtdir none = CtdirStatus.unknown ∧
     iptablesEnforceDirection CtdirStatus.unknown directionIn rule =
       "".data) ∧
    (∀ n : Nat, KERNEL_VERSION_2_6_39 ≤ n →
       ebiptablesDriverProbeCtdir (some n) = CtdirStatus.corrected ∧
       iptablesEnforceDirection CtdirStatus.corrected directionIn rule =
         " -m conntrack --ctdir ".data ++
           (if directionIn then "Reply".data else "Original".data)) ∧
    (∀ n : Nat, n < KERNEL_VERSION_2_6_39 →
       ebiptablesDriverProbeCtdir (some n) = CtdirStatus.old ∧
       iptablesEnforceDirection CtdirStatus.old directionIn rule =
         " -m conntrack --ctdir ".data ++
           (if directionIn then "Original".data else "Reply".data)) := by
  refine ⟨⟨rfl, rfl⟩, fun n hn => ⟨?_, ?_⟩, fun n hn => ⟨?_, ?_⟩⟩
  · simp [ebiptablesDriverProbeCtdir, hn]
  · cases directionIn <;> simp [iptablesEnforceDirection, hne]
  · simp [ebiptablesDriverProbeCtdir, Nat.not_le.mpr hn]
  · cases directionIn <;> simp [iptablesEnforceDirection, hne]

/-- Witness for C5 at a concrete rule and kernel versions. -/
theorem ctdirProbe_enforceDirection_witness :
    sampleRule.tt ≠ RuleDirection.dirInOut ∧
    iptablesEnforceDirection CtdirStatus.unknown false sampleRule =
      "".data ∧
    (KERNEL_VERSION_2_6_39 ≤ 2006039 ∧
     iptablesEnforceDirection CtdirStatus.corrected false sampleRule =
       " -m conntrack --ctdir Original".data) ∧
    (2006038 < KERNEL_VERSION_2_6_39 ∧
     iptablesEnforceDirection CtdirStatus.old false sampleRule =
       " -m conntrack --ctdir Reply".data) := by
  have hne : sampleRule.tt ≠ RuleDirection.dirInOut := by decide
  have h := ctdirProbe_enforceDirection false sampleRule hne
  refine ⟨hne, h.1.2, ⟨by decide, ?_⟩, ⟨by decide, ?_⟩⟩
  · have := (h.2.1 2006039 (by decide)).2
    simpa using this
  · have := (h.2.2 2006038 (by decide)).2
    simpa using this

/-- The empty IP-header matcher block. -/
def emptyIpHdrData : IpHdrData :=
  ⟨none, none, none, none, none, none, none, none, none, none, none,
   none, none⟩

/-- The empty port matcher block. -/
def emptyPortData : PortData := ⟨none, none, none, none⟩

/-- C6: a rule leg whose only present matcher is the source-MAC matcher,
compiled in the inbound direction (so the matcher is skipped and nothing
follows the protocol selector), emits no command template and succeeds. -/
theorem srcMacOnlyInbound_noop (ctdir : CtdirStatus) (p0 p1 : Char)
    (rule : NWRule) (ifname : Str) (matchStr : Option Str) (defMatch : Bool)
    (acceptTarget : Str) (maySkipICMP : Bool)
    (hsm : rule.dataSrcMACAddr.isSome)
    (hip : rule.ipHdr = emptyIpHdrData)
    (hport : rule.portData = emptyPortData)
    (htf : rule.dataTCPFlags = none)
    (hto : rule.dataTCPOption = none)
    (hit : rule.dataICMPType = none)
    (hproto : (virNWFilterRuleIsProtocolIPv4 rule ||
               virNWFilterRuleIsProtocolIPv6 rule) = true) :
    _iptablesCreateRuleInstance ctdir true p0 p1 rule ifname matchStr
      defMatch acceptTarget maySkipICMP = some [] := by
  obtain ⟨m, hm⟩ := Option.isSome_iff_exists.mp hsm
  cases hrp : rule.prtclType <;>
    simp_all [_iptablesCreateRuleInstance, iptablesHandleSrcMacAddr,
      iptablesHandleIpHdr, iptablesHandlePortData, iptRuleEpilogue,
      emptyIpHdrData, emptyPortData, virNWFilterRuleIsProtocolIPv4,
      virNWFilterRuleIsProtocolIPv6]

/-- Witness for C6 at a concrete TCP rule with only a source-MAC matcher. -/
theorem srcMacOnlyInbound_noop_witness :
    _iptablesCreateRuleInstance CtdirStatus.old true 'F' 'J'
      { sampleRule with
        dataSrcMACAddr := some ⟨false, "52:54:00:00:00:01".data⟩ }
      "vnet0".data (some m_state_in_str) true "RETURN".data false =
      some [] := by
  apply srcMacOnlyInbound_noop
  all_goals first | rfl | decide

/-- C7: an ICMP/ICMPv6 leg compiled with the may-skip-ICMP flag and an ICMP
type matcher present emits no command and succeeds (an explicit no-op). -/
theorem icmpTypeSkip_noop (ctdir : CtdirStatus) (directionIn : Bool)
    (p0 p1 : Char) (rule : NWRule) (ifname : Str) (matchStr : Option Str)
    (defMatch : Bool) (acceptTarget : Str)
    (hicmp : rule.prtclType = Protocol.icmp ∨
             rule.prtclType = Protocol.icmpv6)
    (ht : rule.dataICMPType.isSome) :
    _iptablesCreateRuleInstance ctdir directionIn p0 p1 rule ifname matchStr
      defMatch acceptTarget true = some [] := by
  obtain ⟨t, htt⟩ := Option.isSome_iff_exists.mp ht
  rcases hicmp with h | h <;>
    simp [_iptablesCreateRuleInstance, h, htt]

/-- Witness for C7 at a concrete ICMP rule with a type matcher. -/
theorem icmpTypeSkip_noop_witness :
    _iptablesCreateRuleInstance CtdirStatus.old false 'F' 'J'
      { sampleRule with
        prtclType := .icmp, dataICMPType := some ⟨false, "8".data⟩ }
      "vnet0".data (some m_state_out_str) true "RETURN".data true =
      some [] := by
  apply icmpTypeSkip_noop
  · exact Or.inl rfl
  · rfl

/-- C8: in the ebtables backend, a `reject` action compiles to the `DROP`
jump target (the downgrade), and every other action to its own named
target. -/
theorem ebtablesReject_downgradedToDrop (chainPrefix : Char)
    (chainSuffix : Str) (rule : NWRule) (ifname : Str) (reverse : Bool)
    (t : RuleTemplate)
    (h : ebtablesCreateRuleInstance chainPrefix chainSuffix rule ifname
        reverse = some t) :
    (rule.action = RuleAction.reject → " -j DROP".data <:+: t.text) ∧
    (rule.action ≠ RuleAction.reject →
      (" -j ".data ++ virNWFilterJumpTargetTypeToString rule.action) <:+:
        t.text) := by
  have hbody : ∃ b, t.text =
      b ++ " -j ".data ++
        (match rule.action with
         | RuleAction.reject =>
           virNWFilterJumpTargetTypeToString RuleAction.drop
         | a => virNWFilterJumpTargetTypeToString a) ++
        "'\n".data ++ CMD_EXEC := by
    rw [ebtablesCreateRuleInstance] at h
    cases hb : ebtablesRuleBody
        (if chainSuffix = virNWFilterChainSuffixRoot then
          PRINT_ROOT_CHAIN chainPrefix ifname
        else PRINT_CHAIN chainPrefix ifname chainSuffix) rule reverse with
    | none => rw [hb] at h; exact absurd h (by simp)
    | some b =>
      rw [hb] at h
      refine ⟨b, ?_⟩
      have := (Option.some.injEq _ _).mp h
      rw [← this]
  obtain ⟨b, hb⟩ := hbody
  constructor
  · intro hr
    refine ⟨b, "'\n".data ++ CMD_EXEC, ?_⟩
    rw [hb, hr]
    have hx : " -j DROP".data = " -j ".data ++ "DROP".data := by decide
    simp [hx, virNWFilterJumpTargetTypeToString, List.append_assoc]
  · intro hne
    refine ⟨b, "'\n".data ++ CMD_EXEC, ?_⟩
    rw [hb]
    cases ha : rule.action <;> simp_all [List.append_assoc]

/-- Witness for C8 at a concrete bridge-layer reject rule. -/
theorem ebtablesReject_downgradedToDrop_witness :
    ∃ t, ebtablesCreateRuleInstance 'J' "root".data
        { sampleRule with
          prtclType := Protocol.mac
          action := RuleAction.reject } "vnet0".data false = some t ∧
      " -j DROP".data <:+: t.text := by
  refine ⟨_, rfl, ?_⟩
  exact (ebtablesReject_downgradedToDrop 'J' "root".data
    { sampleRule with
      prtclType := Protocol.mac
      action := RuleAction.reject } "vnet0".data false _ rfl).1 rfl

/-- For an accept-action rule whose leg does not skip the match, every
template the epilogue emits contains the supplied state-match text. -/
theorem iptRuleEpilogue_stateMatch_infix (ctdir : CtdirStatus)
    (directionIn : Bool) (chain : Str) (rule : NWRule) (m : Str)
    (defMatch : Bool) (acceptTarget : Str) (parts : IptBodyParts)
    (hacc : rule.action = RuleAction.accept)
    (hsm : parts.skipMatch = false) :
    ∀ t ∈ iptRuleEpilogue ctdir directionIn chain rule (some m) defMatch
        acceptTarget parts, (" ".data ++ m) <:+: t.text := by
  intro t ht
  rw [iptRuleEpilogue] at ht
  by_cases hskip : (parts.srcMacSkipped ∧ parts.body = "".data) ∨
      parts.skipRule
  · rw [if_pos hskip] at ht
    cases ht
  · rw [if_neg hskip] at ht
    simp only [hacc, hsm, if_pos rfl, Bool.not_false, not_false_iff,
      if_true, ite_true, List.mem_singleton] at ht
    subst ht
    refine ⟨parts.commentPrefix ++
      ("cmd='$IPT -A ".data ++ chain ++ parts.protoStr ++ parts.body),
      (if defMatch ∧ (some m).isSome ∧ ¬ false = true ∧
          ¬ parts.hasICMPType then
        iptablesEnforceDirection ctdir directionIn rule
      else "".data) ++ parts.afterStateMatch ++ " -j ".data ++
        acceptTarget ++ "'\n".data ++ CMD_EXEC, ?_⟩
    simp [List.append_assoc]

/-- A leg of an accept-action rule without a connection-limit matcher never
skips the supplied state match: every emitted template contains it. -/
theorem iptablesCreateRule_stateMatch_infix (ctdir : CtdirStatus)
    (directionIn : Bool) (p0 p1 : Char) (rule : NWRule) (ifname : Str)
    (m : Str) (defMatch : Bool) (acceptTarget : Str) (maySkipICMP : Bool)
    (ts : List RuleTemplate)
    (hacc : rule.action = RuleAction.accept)
    (hconn : rule.ipHdr.dataConnlimitAbove = none)
    (h : _iptablesCreateRuleInstance ctdir directionIn p0 p1 rule ifname
        (some m) defMatch acceptTarget maySkipICMP = some ts) :
    ∀ t ∈ ts, (" ".data ++ m) <:+: t.text := by
  have hskipm :
      (iptablesHandleIpHdr rule.ipHdr directionIn).2.2.2.2 = false := by
    simp [iptablesHandleIpHdr, hconn]
  cases hrp : rule.prtclType <;>
    simp only [_iptablesCreateRuleInstance, hrp, Option.some.injEq] at h
  case mac => exact Option.noConfusion h
  case none_ => exact Option.noConfusion h
  case icmp =>
    cases hty : rule.dataICMPType with
    | none =>
      rw [hty] at h
      simp only [Option.some.injEq] at h
      subst h
      exact iptRuleEpilogue_stateMatch_infix _ _ _ _ _ _ _ _ hacc hskipm
    | some t0 =>
      rw [hty] at h
      cases maySkipICMP
      · simp only [Bool.false_eq_true, if_false, ite_false,
          Option.some.injEq] at h
        subst h
        exact iptRuleEpilogue_stateMatch_infix _ _ _ _ _ _ _ _ hacc hskipm
      · simp only [if_true, ite_true, Option.some.injEq] at h
        subst h
        intro t ht
        cases ht
  case icmpv6 =>
    cases hty : rule.dataICMPType with
    | none =>
      rw [hty] at h
      simp only [Option.some.injEq] at h
      subst h
      exact iptRuleEpilogue_stateMatch_infix _ _ _ _ _ _ _ _ hacc hskipm
    | some t0 =>
      rw [hty] at h
      cases maySkipICMP
      · simp only [Bool.false_eq_true, if_false, ite_false,
          Option.some.injEq] at h
        subst h
        exact iptRuleEpilogue_stateMatch_infix _ _ _ _ _ _ _ _ hacc hskipm
      · simp only [if_true, ite_true, Option.some.injEq] at h
        subst h
        intro t ht
        cases ht
  all_goals subst h
  all_goals
    exact iptRuleEpilogue_stateMatch_infix _ _ _ _ _ _ _ _ hacc hskipm

/-- For IP-layer protocols the leg compiler never reports an error. -/
theorem iptablesCreateRule_isSome (ctdir : CtdirStatus) (directionIn : Bool)
    (p0 p1 : Char) (rule : NWRule) (ifname : Str) (matchStr : Option Str)
    (defMatch : Bool) (acceptTarget : Str) (maySkipICMP : Bool)
    (hproto : (virNWFilterRuleIsProtocolIPv4 rule ||
               virNWFilterRuleIsProtocolIPv6 rule) = true) :
    ∃ ts, _iptablesCreateRuleInstance ctdir directionIn p0 p1 rule ifname
        matchStr defMatch acceptTarget maySkipICMP = some ts := by
  cases hrp : rule.prtclType
  case mac =>
    simp [virNWFilterRuleIsProtocolIPv4, virNWFilterRuleIsProtocolIPv6,
      hrp] at hproto
  case none_ =>
    simp [virNWFilterRuleIsProtocolIPv4, virNWFilterRuleIsProtocolIPv6,
      hrp] at hproto
  case icmp =>
    simp only [_iptablesCreateRuleInstance, hrp]
    cases rule.dataICMPType
    · simp
    · cases maySkipICMP <;> simp
  case icmpv6 =>
    simp only [_iptablesCreateRuleInstance, hrp]
    cases rule.dataICMPType
    · simp
    · cases maySkipICMP <;> simp
  all_goals
    (simp only [_iptablesCreateRuleInstance, hrp]; simp)

/-- Counterexample to C4 as stated: an `inout` TCP accept rule neither
disables state matching nor carries explicit state flags, yet none of its
three generated command templates contains any state match — the automatic
`NEW,ESTABLISHED`/`ESTABLISHED` match is only added for unidirectional
rules. -/
theorem autoStateMatch_inout_counterexample :
    ∃ ts, iptablesCreateRuleInstance CtdirStatus.old
        { sampleRule with tt := RuleDirection.dirInOut } "vnet0".data =
        some ts ∧
      ts.length = 3 ∧
      ∀ t ∈ ts, ¬ m_state_out_str <:+: t.text ∧
        ¬ m_state_in_str <:+: t.text := by
  refine ⟨_, rfl, by decide, by decide⟩

/-- C4 (amended): for a unidirectional (`in`/`out`) IP-layer accept rule
without a connection-limit matcher that neither disables state matching nor
carries explicit state flags, the compiler emits the three chain legs where
every template of an outbound-direction leg carries the
`NEW,ESTABLISHED` state match and every template of an inbound-direction
leg carries the `ESTABLISHED` state match. -/
theorem autoStateMatch_amended (ctdir : CtdirStatus) (rule : NWRule)
    (ifname : Str)
    (hdir : rule.tt ≠ RuleDirection.dirInOut)
    (hnsm : rule.flagNoStateMatch = false)
    (hflags : rule.stateMatchFlags = none)
    (hacc : rule.action = RuleAction.accept)
    (hconn : rule.ipHdr.dataConnlimitAbove = none)
    (hproto : (virNWFilterRuleIsProtocolIPv4 rule ||
               virNWFilterRuleIsProtocolIPv6 rule) = true) :
    ∃ ts1 ts2 ts3,
      _iptablesCreateRuleInstance ctdir (ruleDirectionIn rule.tt) 'F' 'J'
          rule ifname
          (some (if ruleDirectionIn rule.tt then m_state_in_str
                 else m_state_out_str))
          true "RETURN".data (ruleDirectionIn rule.tt) = some ts1 ∧
      _iptablesCreateRuleInstance ctdir (!ruleDirectionIn rule.tt) 'F' 'P'
          rule ifname
          (some (if ruleDirectionIn rule.tt then m_state_out_str
                 else m_state_in_str))
          true "ACCEPT".data (!ruleDirectionIn rule.tt) = some ts2 ∧
      _iptablesCreateRuleInstance ctdir (ruleDirectionIn rule.tt) 'H' 'J'
          rule ifname
          (some (if ruleDirectionIn rule.tt then m_state_in_str
                 else m_state_out_str))
          true "RETURN".data (ruleDirectionIn rule.tt) = some ts3 ∧
      iptablesCreateRuleInstance ctdir rule ifname =
        some (ts1 ++ ts2 ++ ts3) ∧
      (∀ t ∈ ts1,
        (" ".data ++ (if ruleDirectionIn rule.tt then m_state_in_str
                      else m_state_out_str)) <:+: t.text) ∧
      (∀ t ∈ ts2,
        (" ".data ++ (if ruleDirectionIn rule.tt then m_state_out_str
                      else m_state_in_str)) <:+: t.text) ∧
      (∀ t ∈ ts3,
        (" ".data ++ (if ruleDirectionIn rule.tt then m_state_in_str
                      else m_state_out_str)) <:+: t.text) := by
  have hio : decide (rule.tt = RuleDirection.dirInOut) = false :=
    decide_eq_false hdir
  obtain ⟨ts1, h1⟩ := iptablesCreateRule_isSome ctdir
    (ruleDirectionIn rule.tt) 'F' 'J' rule ifname
    (some (if ruleDirectionIn rule.tt then m_state_in_str
           else m_state_out_str))
    true "RETURN".data (ruleDirectionIn rule.tt) hproto
  obtain ⟨ts2, h2⟩ := iptablesCreateRule_isSome ctdir
    (!ruleDirectionIn rule.tt) 'F' 'P' rule ifname
    (some (if ruleDirectionIn rule.tt then m_state_out_str
           else m_state_in_str))
    true "ACCEPT".data (!ruleDirectionIn rule.tt) hproto
  obtain ⟨ts3, h3⟩ := iptablesCreateRule_isSome ctdir
    (ruleDirectionIn rule.tt) 'H' 'J' rule ifname
    (some (if ruleDirectionIn rule.tt then m_state_in_str
           else m_state_out_str))
    true "RETURN".data (ruleDirectionIn rule.tt) hproto
  refine ⟨ts1, ts2, ts3, h1, h2, h3, ?_, ?_, ?_, ?_⟩
  · simp only [iptablesCreateRuleInstance, hflags, hnsm, hio,
      Option.isSome_none, Bool.false_eq_true, and_false, if_false,
      Bool.not_false, Bool.and_self, Bool.true_and, Bool.and_true,
      Bool.or_false, if_true, ite_true, ite_false]
    simp only [h1, h2, h3]
  · exact iptablesCreateRule_stateMatch_infix _ _ _ _ _ _ _ _ _ _ _
      hacc hconn h1
  · exact iptablesCreateRule_stateMatch_infix _ _ _ _ _ _ _ _ _ _ _
      hacc hconn h2
  · exact iptablesCreateRule_stateMatch_infix _ _ _ _ _ _ _ _ _ _ _
      hacc hconn h3

/-- Witness for the amended C4 at a concrete outbound TCP accept rule. -/
theorem autoStateMatch_amended_witness :
    ∃ ts1 ts2 ts3,
      iptablesCreateRuleInstance CtdirStatus.unknown sampleRule
        "vnet0".data = some (ts1 ++ ts2 ++ ts3) ∧
      (∀ t ∈ ts1, (" ".data ++ m_state_out_str) <:+: t.text) ∧
      (∀ t ∈ ts2, (" ".data ++ m_state_in_str) <:+: t.text) := by
  obtain ⟨ts1, ts2, ts3, h1, h2, h3, hm, hi1, hi2, hi3⟩ :=
    autoStateMatch_amended CtdirStatus.unknown sampleRule "vnet0".data
      (by decide) rfl rfl rfl rfl (by decide)
  have hd : ruleDirectionIn sampleRule.tt = false := rfl
  rw [hd] at hi1 hi2
  exact ⟨ts1, ts2, ts3, hm, by simpa using hi1, by simpa using hi2⟩

/-! ## The virFirewall (discrete rule-list) teardown model (claim C9) -/

/-- `virFirewallLayer`. -/
inductive FwLayer
  | eth | ipv4 | ipv6
  deriving DecidableEq, Repr

/-- A command submitted through the discrete rule-list executor, at the
granularity the teardown claims need.  `discover` stands for an `-L` query
whose `ebtablesRemoveSubChainsQuery` callback recursively flushes and
deletes every reachable chain whose name is one of the prefix letters
followed by a dash. -/
inductive FwCmd
  | newChain (layer : FwLayer) (chain : Str)
  | flush (layer : FwLayer) (ignoreErrors : Bool) (chain : Str)
  | delete (layer : FwLayer) (ignoreErrors : Bool) (chain : Str)
  | rename (layer : FwLayer) (oldName newName : Str)
  | deleteJump (layer : FwLayer) (ignoreErrors : Bool) (basechain : Str)
      (target : Str)
  | deleteRuleSpec (layer : FwLayer) (ignoreErrors : Bool) (chain : Str)
  | discover (layer : FwLayer) (root : Str) (prefixes : List Char)
  deriving DecidableEq, Repr

/-- A transaction as built by `virFirewallStartTransaction` plus its
rules. -/
structure FwTransaction where
  ignoreErrors : Bool
  cmds : List FwCmd
  deriving DecidableEq, Repr

/-- `VIRT_IN_CHAIN`, `VIRT_OUT_CHAIN`, `VIRT_IN_POST_CHAIN`,
`HOST_IN_CHAIN`. -/
def VIRT_IN_CHAIN : Str := "libvirt-in".data
def VIRT_OUT_CHAIN : Str := "libvirt-out".data
def VIRT_IN_POST_CHAIN : Str := "libvirt-in-post".data
def HOST_IN_CHAIN : Str := "libvirt-host-in".data

/-- `EBTABLES_CHAIN_INCOMING` / `EBTABLES_CHAIN_OUTGOING`. -/
def EBTABLES_CHAIN_INCOMING : Str := "PREROUTING".data
def EBTABLES_CHAIN_OUTGOING : Str := "POSTROUTING".data

/-- `_iptablesUnlinkRootChainFW` (the active-generation variant): removes
the jump to the root chain from its base chain, plus the legacy
`--physdev-out` form for the outgoing direction. -/
def iptablesUnlinkRootChainFW (layer : FwLayer) (basechain : Str)
    (pfx : Char) (incoming : Bool) (ifname : Str) : List FwCmd :=
  let chain := PRINT_IPT_ROOT_CHAIN pfx
    (if incoming then CHAINPREFIX_HOST_IN else CHAINPREFIX_HOST_OUT) ifname
  FwCmd.deleteJump layer true basechain chain ::
    (if ¬ incoming then [FwCmd.deleteJump layer true basechain chain] else [])

/-- `iptablesUnlinkRootChainsFW`. -/
def iptablesUnlinkRootChainsFW (layer : FwLayer) (ifname : Str) :
    List FwCmd :=
  iptablesUnlinkRootChainFW layer VIRT_OUT_CHAIN 'F' false ifname ++
  iptablesUnlinkRootChainFW layer VIRT_IN_CHAIN 'F' true ifname ++
  iptablesUnlinkRootChainFW layer HOST_IN_CHAIN 'H' true ifname

/-- `iptablesClearVirtInPostFW`. -/
def iptablesClearVirtInPostFW (layer : FwLayer) (ifname : Str) :
    List FwCmd :=
  [FwCmd.deleteRuleSpec layer true VIRT_IN_POST_CHAIN]

/-- `_iptablesRemoveRootChainFW` (active variant): flush then delete. -/
def iptablesRemoveRootChainFW (layer : FwLayer) (pfx : Char)
    (incoming : Bool) (ifname : Str) : List FwCmd :=
  let chain := PRINT_IPT_ROOT_CHAIN pfx
    (if incoming then CHAINPREFIX_HOST_IN else CHAINPREFIX_HOST_OUT) ifname
  [FwCmd.flush layer true chain, FwCmd.delete layer true chain]

/-- `iptablesRemoveRootChainsFW`. -/
def iptablesRemoveRootChainsFW (layer : FwLayer) (ifname : Str) :
    List FwCmd :=
  iptablesRemoveRootChainFW layer 'F' false ifname ++
  iptablesRemoveRootChainFW layer 'F' true ifname ++
  iptablesRemoveRootChainFW layer 'H' true ifname

/-- `ebtablesUnlinkRootChainFW` (active variant). -/
def ebtablesUnlinkRootChainFW (incoming : Bool) (ifname : Str) :
    List FwCmd :=
  let chain := PRINT_ROOT_CHAIN
    (if incoming then CHAINPREFIX_HOST_IN else CHAINPREFIX_HOST_OUT) ifname
  [FwCmd.deleteJump FwLayer.eth true
    (if incoming then EBTABLES_CHAIN_INCOMING else EBTABLES_CHAIN_OUTGOING)
    chain]

/-- `ebtablesRemoveRootChainFW` (active variant). -/
def ebtablesRemoveRootChainFW (incoming : Bool) (ifname : Str) :
    List FwCmd :=
  let chain := PRINT_ROOT_CHAIN
    (if incoming then CHAINPREFIX_HOST_IN else CHAINPREFIX_HOST_OUT) ifname
  [FwCmd.flush FwLayer.eth true chain, FwCmd.delete FwLayer.eth true chain]

/-- `_ebtablesRemoveSubChainsFW`: one recursive discovery query per root
chain of the given prefixes; the query removes reachable chains whose
names start with one of the prefixes followed by a dash. -/
def _ebtablesRemoveSubChainsFW (ifname : Str) (chainprefixes : List Char) :
    List FwCmd :=
  chainprefixes.map (fun p =>
    FwCmd.discover FwLayer.eth (PRINT_ROOT_CHAIN p ifname) chainprefixes)

/-- `ebtablesRemoveSubChainsFW`: discovery over the active prefixes
(`chainprefixes_host` = `I`, `O`). -/
def ebtablesRemoveSubChainsFW (ifname : Str) : List FwCmd :=
  _ebtablesRemoveSubChainsFW ifname [CHAINPREFIX_HOST_IN, CHAINPREFIX_HOST_OUT]

/-- `ebiptablesAllTeardown`: the unconditional teardown transaction for an
interface. -/
def ebiptablesAllTeardown (ifname : Str) : FwTransaction where
  ignoreErrors := true
  cmds :=
    iptablesUnlinkRootChainsFW FwLayer.ipv4 ifname ++
    iptablesClearVirtInPostFW FwLayer.ipv4 ifname ++
    iptablesRemoveRootChainsFW FwLayer.ipv4 ifname ++
    iptablesUnlinkRootChainsFW FwLayer.ipv6 ifname ++
    iptablesClearVirtInPostFW FwLayer.ipv6 ifname ++
    iptablesRemoveRootChainsFW FwLayer.ipv6 ifname ++
    ebtablesUnlinkRootChainFW true ifname ++
    ebtablesUnlinkRootChainFW false ifname ++
    ebtablesRemoveSubChainsFW ifname ++
    ebtablesRemoveRootChainFW true ifname ++
    ebtablesRemoveRootChainFW false ifname

/-- Whether a chain name consists of one of the given prefix letters
followed by a dash — the name shape of protocol sub-chains, and the shape
matched by the recursive-discovery callbacks. -/
def headDashPrefix (prefixes : List Char) : Str → Bool
  | p :: '-' :: _ => prefixes.contains p
  | _ => false

/-- Whether a firewall command flushes, deletes, renames or unlinks the
given chain (directly, or through the recursive discovery callback). -/
def fwCmdRemovesChain : FwCmd → Str → Bool
  | .newChain _ _, _ => false
  | .flush _ _ c, ch => decide (ch = c)
  | .delete _ _ c, ch => decide (ch = c)
  | .rename _ o n, ch => decide (ch = o) || decide (ch = n)
  | .deleteJump _ _ _ tgt, ch => decide (ch = tgt)
  | .deleteRuleSpec _ _ _, _ => false
  | .discover _ _ prefixes, ch => headDashPrefix prefixes ch

/-- The chains of the temporary generation for an interface: the ebtables
and iptables temporary root chains and any `J-`/`P-`-prefixed temporary
sub-chain. -/
def isTempGenChain (ifname ch : Str) : Bool :=
  decide (ch = PRINT_ROOT_CHAIN CHAINPREFIX_HOST_IN_TEMP ifname) ||
  decide (ch = PRINT_ROOT_CHAIN CHAINPREFIX_HOST_OUT_TEMP ifname) ||
  decide (ch = PRINT_IPT_ROOT_CHAIN 'F' CHAINPREFIX_HOST_IN_TEMP ifname) ||
  decide (ch = PRINT_IPT_ROOT_CHAIN 'F' CHAINPREFIX_HOST_OUT_TEMP ifname) ||
  decide (ch = PRINT_IPT_ROOT_CHAIN 'H' CHAINPREFIX_HOST_IN_TEMP ifname) ||
  headDashPrefix [CHAINPREFIX_HOST_IN_TEMP, CHAINPREFIX_HOST_OUT_TEMP] ch

/-- The chains of the active generation for an interface: the ebtables and
iptables active root chains and any `I-`/`O-`-prefixed active
sub-chain. -/
def isActiveGenChain (ifname ch : Str) : Bool :=
  decide (ch = PRINT_ROOT_CHAIN CHAINPREFIX_HOST_IN ifname) ||
  decide (ch = PRINT_ROOT_CHAIN CHAINPREFIX_HOST_OUT ifname) ||
  decide (ch = PRINT_IPT_ROOT_CHAIN 'F' CHAINPREFIX_HOST_IN ifname) ||
  decide (ch = PRINT_IPT_ROOT_CHAIN 'F' CHAINPREFIX_HOST_OUT ifname) ||
  decide (ch = PRINT_IPT_ROOT_CHAIN 'H' CHAINPREFIX_HOST_IN ifname) ||
  headDashPrefix [CHAINPREFIX_HOST_IN, CHAINPREFIX_HOST_OUT] ch

/-- Active-generation chain names are never temporary-generation names. -/
theorem active_not_temp (ifname ch : Str)
    (h : isActiveGenChain ifname ch = true) :
    isTempGenChain ifname ch = false := by
  simp only [isActiveGenChain, Bool.or_eq_true, decide_eq_true_eq] at h
  rcases h with ((((h | h) | h) | h) | h) | h
  · subst h
    simp [isTempGenChain, PRINT_ROOT_CHAIN, PRINT_IPT_ROOT_CHAIN,
      CHAINPREFIX_HOST_IN, CHAINPREFIX_HOST_OUT, CHAINPREFIX_HOST_IN_TEMP,
      CHAINPREFIX_HOST_OUT_TEMP, headDashPrefix]
  · subst h
    simp [isTempGenChain, PRINT_ROOT_CHAIN, PRINT_IPT_ROOT_CHAIN,
      CHAINPREFIX_HOST_IN, CHAINPREFIX_HOST_OUT, CHAINPREFIX_HOST_IN_TEMP,
      CHAINPREFIX_HOST_OUT_TEMP, headDashPrefix]
  · subst h
    simp [isTempGenChain, PRINT_ROOT_CHAIN, PRINT_IPT_ROOT_CHAIN,
      CHAINPREFIX_HOST_IN, CHAINPREFIX_HOST_OUT, CHAINPREFIX_HOST_IN_TEMP,
      CHAINPREFIX_HOST_OUT_TEMP, headDashPrefix]
  · subst h
    simp [isTempGenChain, PRINT_ROOT_CHAIN, PRINT_IPT_ROOT_CHAIN,
      CHAINPREFIX_HOST_IN, CHAINPREFIX_HOST_OUT, CHAINPREFIX_HOST_IN_TEMP,
      CHAINPREFIX_HOST_OUT_TEMP, headDashPrefix]
  · subst h
    simp [isTempGenChain, PRINT_ROOT_CHAIN, PRINT_IPT_ROOT_CHAIN,
      CHAINPREFIX_HOST_IN, CHAINPREFIX_HOST_OUT, CHAINPREFIX_HOST_IN_TEMP,
      CHAINPREFIX_HOST_OUT_TEMP, headDashPrefix]
  · unfold headDashPrefix at h
    split at h
    · rename_i p tail
      simp only [List.contains_cons, List.contains_nil, Bool.or_false,
        CHAINPREFIX_HOST_IN, CHAINPREFIX_HOST_OUT] at h
      have hp : p = 'I' ∨ p = 'O' := by
        rcases Bool.or_eq_true_iff.mp h with h' | h'
        · exact Or.inl (by simpa using h')
        · exact Or.inr (by simpa using h')
      rcases hp with rfl | rfl <;>
        simp [isTempGenChain, PRINT_ROOT_CHAIN, PRINT_IPT_ROOT_CHAIN,
          CHAINPREFIX_HOST_IN_TEMP, CHAINPREFIX_HOST_OUT_TEMP,
          headDashPrefix]
    · cases h

/-- Every chain the iptables root-chain unlink commands touch is an
active-generation chain. -/
theorem fwRemoves_unlinkRootChains (layer : FwLayer) (ifname : Str) :
    ∀ cmd ∈ iptablesUnlinkRootChainsFW layer ifname, ∀ ch,
      fwCmdRemovesChain cmd ch = true → isActiveGenChain ifname ch = true := by
  intro cmd hmem ch hrem
  simp [iptablesUnlinkRootChainsFW, iptablesUnlinkRootChainFW] at hmem
  rcases hmem with rfl | rfl | rfl <;>
    (simp only [fwCmdRemovesChain, decide_eq_true_eq] at hrem
     subst hrem
     simp [isActiveGenChain])

/-- The `libvirt-in-post` cleanup command removes no chain. -/
theorem fwRemoves_clearVirtInPost (layer : FwLayer) (ifname : Str) :
    ∀ cmd ∈ iptablesClearVirtInPostFW layer ifname, ∀ ch,
      fwCmdRemovesChain cmd ch = true → isActiveGenChain ifname ch = true := by
  intro cmd hmem ch hrem
  simp only [iptablesClearVirtInPostFW, List.mem_singleton] at hmem
  subst hmem
  simp [fwCmdRemovesChain] at hrem

/-- Every chain the iptables root-chain removal commands touch is an
active-generation chain. -/
theorem fwRemoves_removeRootChains (layer : FwLayer) (ifname : Str) :
    ∀ cmd ∈ iptablesRemoveRootChainsFW layer ifname, ∀ ch,
      fwCmdRemovesChain cmd ch = true → isActiveGenChain ifname ch = true := by
  intro cmd hmem ch hrem
  simp [iptablesRemoveRootChainsFW, iptablesRemoveRootChainFW] at hmem
  rcases hmem with rfl | rfl | rfl | rfl | rfl | rfl <;>
    (simp only [fwCmdRemovesChain, decide_eq_true_eq] at hrem
     subst hrem
     simp [isActiveGenChain])

/-- Every chain the ebtables root-chain unlink command touches is an
active-generation chain. -/
theorem fwRemoves_ebtUnlink (incoming : Bool) (ifname : Str) :
    ∀ cmd ∈ ebtablesUnlinkRootChainFW incoming ifname, ∀ ch,
      fwCmdRemovesChain cmd ch = true → isActiveGenChain ifname ch = true := by
  intro cmd hmem ch hrem
  simp only [ebtablesUnlinkRootChainFW, List.mem_singleton] at hmem
  subst hmem
  simp only [fwCmdRemovesChain, decide_eq_true_eq] at hrem
  subst hrem
  cases incoming <;> simp [isActiveGenChain]

/-- Every chain the ebtables root-chain removal commands touch is an
active-generation chain. -/
theorem fwRemoves_ebtRemoveRoot (incoming : Bool) (ifname : Str) :
    ∀ cmd ∈ ebtablesRemoveRootChainFW incoming ifname, ∀ ch,
      fwCmdRemovesChain cmd ch = true → isActiveGenChain ifname ch = true := by
  intro cmd hmem ch hrem
  simp only [ebtablesRemoveRootChainFW, List.mem_cons, List.not_mem_nil,
    or_false] at hmem
  rcases hmem with rfl | rfl <;>
    (simp only [fwCmdRemovesChain, decide_eq_true_eq] at hrem
     subst hrem
     cases incoming <;> simp [isActiveGenChain])

/-- Every chain the active sub-chain discovery removes is an
active-generation chain. -/
theorem fwRemoves_ebtSubChains (ifname : Str) :
    ∀ cmd ∈ ebtablesRemoveSubChainsFW ifname, ∀ ch,
      fwCmdRemovesChain cmd ch = true → isActiveGenChain ifname ch = true := by
  intro cmd hmem ch hrem
  simp only [ebtablesRemoveSubChainsFW, _ebtablesRemoveSubChainsFW,
    List.map_cons, List.map_nil, List.mem_cons, List.not_mem_nil,
    or_false] at hmem
  rcases hmem with rfl | rfl <;>
    (simp only [fwCmdRemovesChain] at hrem
     simp [isActiveGenChain, hrem])

/-- C9 (amended): the unconditional all-teardown for an interface runs in
an ignore-errors transaction, unlinks, flushes and deletes the active root
chains of both backends (with recursive discovery of active sub-chains),
and every chain any of its commands removes is an active-generation chain —
the temporary generation is never touched. -/
theorem allTeardown_amended (ifname : Str) :
    (ebiptablesAllTeardown ifname).ignoreErrors = true ∧
    (∀ cmd ∈ (ebiptablesAllTeardown ifname).cmds, ∀ ch,
      fwCmdRemovesChain cmd ch = true →
        isActiveGenChain ifname ch = true ∧
        isTempGenChain ifname ch = false) ∧
    (FwCmd.deleteJump FwLayer.eth true EBTABLES_CHAIN_INCOMING
        (PRINT_ROOT_CHAIN CHAINPREFIX_HOST_IN ifname) ∈
      (ebiptablesAllTeardown ifname).cmds) ∧
    (FwCmd.deleteJump FwLayer.eth true EBTABLES_CHAIN_OUTGOING
        (PRINT_ROOT_CHAIN CHAINPREFIX_HOST_OUT ifname) ∈
      (ebiptablesAllTeardown ifname).cmds) ∧
    (∀ incoming : Bool,
      FwCmd.flush FwLayer.eth true
          (PRINT_ROOT_CHAIN
            (if incoming then CHAINPREFIX_HOST_IN else CHAINPREFIX_HOST_OUT)
            ifname) ∈ (ebiptablesAllTeardown ifname).cmds ∧
      FwCmd.delete FwLayer.eth true
          (PRINT_ROOT_CHAIN
            (if incoming then CHAINPREFIX_HOST_IN else CHAINPREFIX_HOST_OUT)
            ifname) ∈ (ebiptablesAllTeardown ifname).cmds) ∧
    (∀ p : Char, p ∈ [CHAINPREFIX_HOST_IN, CHAINPREFIX_HOST_OUT] →
      FwCmd.discover FwLayer.eth (PRINT_ROOT_CHAIN p ifname)
          [CHAINPREFIX_HOST_IN, CHAINPREFIX_HOST_OUT] ∈
        (ebiptablesAllTeardown ifname).cmds) ∧
    (∀ layer ∈ [FwLayer.ipv4, FwLayer.ipv6],
      ∀ pc ∈ [PRINT_IPT_ROOT_CHAIN 'F' CHAINPREFIX_HOST_OUT ifname,
              PRINT_IPT_ROOT_CHAIN 'F' CHAINPREFIX_HOST_IN ifname,
              PRINT_IPT_ROOT_CHAIN 'H' CHAINPREFIX_HOST_IN ifname],
        FwCmd.flush layer true pc ∈ (ebiptablesAllTeardown ifname).cmds ∧
        FwCmd.delete layer true pc ∈ (ebiptablesAllTeardown ifname).cmds) := by
  refine ⟨rfl, ?_, ?_, ?_, ?_, ?_, ?_⟩
  · intro cmd hmem ch hrem
    have hact : isActiveGenChain ifname ch = true := by
      simp only [ebiptablesAllTeardown, List.mem_append] at hmem
      rcases hmem with
        ((((((((((h | h) | h) | h) | h) | h) | h) | h) | h) | h) | h)
      · exact fwRemoves_unlinkRootChains _ _ cmd h ch hrem
      · exact fwRemoves_clearVirtInPost _ _ cmd h ch hrem
      · exact fwRemoves_removeRootChains _ _ cmd h ch hrem
      · exact fwRemoves_unlinkRootChains _ _ cmd h ch hrem
      · exact fwRemoves_clearVirtInPost _ _ cmd h ch hrem
      · exact fwRemoves_removeRootChains _ _ cmd h ch hrem
      · exact fwRemoves_ebtUnlink _ _ cmd h ch hrem
      · exact fwRemoves_ebtUnlink _ _ cmd h ch hrem
      · exact fwRemoves_ebtSubChains _ cmd h ch hrem
      · exact fwRemoves_ebtRemoveRoot _ _ cmd h ch hrem
      · exact fwRemoves_ebtRemoveRoot _ _ cmd h ch hrem
    exact ⟨hact, active_not_temp ifname ch hact⟩
  · simp [ebiptablesAllTeardown, ebtablesUnlinkRootChainFW,
      iptablesUnlinkRootChainsFW, iptablesUnlinkRootChainFW,
      iptablesClearVirtInPostFW, iptablesRemoveRootChainsFW,
      iptablesRemoveRootChainFW, ebtablesRemoveSubChainsFW,
      _ebtablesRemoveSubChainsFW, ebtablesRemoveRootChainFW]
  · simp [ebiptablesAllTeardown, ebtablesUnlinkRootChainFW,
      iptablesUnlinkRootChainsFW, iptablesUnlinkRootChainFW,
      iptablesClearVirtInPostFW, iptablesRemoveRootChainsFW,
      iptablesRemoveRootChainFW, ebtablesRemoveSubChainsFW,
      _ebtablesRemoveSubChainsFW, ebtablesRemoveRootChainFW]
  · intro incoming
    cases incoming <;>
      constructor <;>
      simp [ebiptablesAllTeardown, ebtablesUnlinkRootChainFW,
        iptablesUnlinkRootChainsFW, iptablesUnlinkRootChainFW,
        iptablesClearVirtInPostFW, iptablesRemoveRootChainsFW,
        iptablesRemoveRootChainFW, ebtablesRemoveSubChainsFW,
        _ebtablesRemoveSubChainsFW, ebtablesRemoveRootChainFW]
  · intro p hp
    rcases List.mem_cons.mp hp with rfl | hp
    · simp [ebiptablesAllTeardown, ebtablesUnlinkRootChainFW,
        iptablesUnlinkRootChainsFW, iptablesUnlinkRootChainFW,
        iptablesClearVirtInPostFW, iptablesRemoveRootChainsFW,
        iptablesRemoveRootChainFW, ebtablesRemoveSubChainsFW,
        _ebtablesRemoveSubChainsFW, ebtablesRemoveRootChainFW]
    · rcases List.mem_cons.mp hp with rfl | hp
      · simp [ebiptablesAllTeardown, ebtablesUnlinkRootChainFW,
          iptablesUnlinkRootChainsFW, iptablesUnlinkRootChainFW,
          iptablesClearVirtInPostFW, iptablesRemoveRootChainsFW,
          iptablesRemoveRootChainFW, ebtablesRemoveSubChainsFW,
          _ebtablesRemoveSubChainsFW, ebtablesRemoveRootChainFW]
      · cases hp
  · intro layer hl pc hpc
    fin_cases hl <;> fin_cases hpc <;>
      (constructor <;>
        simp [ebiptablesAllTeardown, ebtablesUnlinkRootChainFW,
          iptablesUnlinkRootChainsFW, iptablesUnlinkRootChainFW,
          iptablesClearVirtInPostFW, iptablesRemoveRootChainsFW,
          iptablesRemoveRootChainFW, ebtablesRemoveSubChainsFW,
          _ebtablesRemoveSubChainsFW, ebtablesRemoveRootChainFW])

/-- Counterexample to C9 as stated: for interface `vnet0`, no command of
the all-teardown transaction unlinks, flushes or deletes any
temporary-generation chain — neither the temporary root chains of either
backend nor any `J-`-prefixed temporary sub-chain — so the operation does
not remove the temporary chain generation. -/
theorem allTeardown_keepsTemp_counterexample :
    ((ebiptablesAllTeardown "vnet0".data).cmds.all (fun c =>
      !(fwCmdRemovesChain c
          (PRINT_ROOT_CHAIN CHAINPREFIX_HOST_IN_TEMP "vnet0".data)) &&
      !(fwCmdRemovesChain c
          (PRINT_ROOT_CHAIN CHAINPREFIX_HOST_OUT_TEMP "vnet0".data)) &&
      !(fwCmdRemovesChain c
          (PRINT_IPT_ROOT_CHAIN 'F' CHAINPREFIX_HOST_IN_TEMP
            "vnet0".data)) &&
      !(fwCmdRemovesChain c
          (PRINT_IPT_ROOT_CHAIN 'F' CHAINPREFIX_HOST_OUT_TEMP
            "vnet0".data)) &&
      !(fwCmdRemovesChain c
          (PRINT_IPT_ROOT_CHAIN 'H' CHAINPREFIX_HOST_IN_TEMP
            "vnet0".data)) &&
      !(fwCmdRemovesChain c ("J-vnet0-ipv4".data)))) = true := by
  decide

/-- Witness for the amended C9 at interface `vnet0`. -/
theorem allTeardown_amended_witness :
    (ebiptablesAllTeardown "vnet0".data).ignoreErrors = true ∧
    FwCmd.flush FwLayer.eth true
        (PRINT_ROOT_CHAIN CHAINPREFIX_HOST_IN "vnet0".data) ∈
      (ebiptablesAllTeardown "vnet0".data).cmds ∧
    FwCmd.discover FwLayer.eth
        (PRINT_ROOT_CHAIN CHAINPREFIX_HOST_IN "vnet0".data)
        [CHAINPREFIX_HOST_IN, CHAINPREFIX_HOST_OUT] ∈
      (ebiptablesAllTeardown "vnet0".data).cmds := by
  have h := allTeardown_amended "vnet0".data
  refine ⟨h.1, ?_, ?_⟩
  · have := (h.2.2.2.2.1 true).1
    simpa using this
  · exact h.2.2.2.2.2.1 CHAINPREFIX_HOST_IN (by simp)

/-! ## The transactional apply engine (claim C1) -/

/-- Insertion of an element into a sorted list: the comparison sort used to
model `qsort` (whose output order for a consistent comparator is all the
code relies on). -/
def insertSorted {α : Type} (le : α → α → Bool) (x : α) :
    List α → List α
  | [] => [x]
  | y :: ys => if le x y then x :: y :: ys else y :: insertSorted le x ys

/-- The comparison sort modelling `qsort`. -/
def sortByCmp {α : Type} (le : α → α → Bool) (l : List α) : List α :=
  l.foldr (insertSorted le) []

theorem mem_insertSorted {α : Type} (le : α → α → Bool) (x a : α)
    (l : List α) : a ∈ insertSorted le x l ↔ a = x ∨ a ∈ l := by
  induction l with
  | nil => simp [insertSorted]
  | cons y ys ih =>
    by_cases hle : le x y = true
    · rw [insertSorted, if_pos hle]
      simp
    · rw [insertSorted, if_neg hle]
      simp only [List.mem_cons, ih]
      tauto

theorem mem_sortByCmp {α : Type} (le : α → α → Bool) (a : α) (l : List α) :
    a ∈ sortByCmp le l ↔ a ∈ l := by
  induction l with
  | nil => simp [sortByCmp]
  | cons y ys ih =>
    simp only [sortByCmp, List.foldr_cons, mem_insertSorted, List.mem_cons]
    rw [sortByCmp] at ih
    rw [ih]

/-- `NWFILTER_SET_EBTABLES_SHELLVAR` and friends. -/
def setShellVarCmds (t : Tool) : List ScriptCmd := [ScriptCmd.setShellVar t]

/-- `ebtablesCreateTmpRootChain` (script form). -/
def ebtablesCreateTmpRootChain (incoming : Bool) (ifname : Str) :
    List ScriptCmd :=
  [ScriptCmd.newChain Tool.ebt
    (PRINT_ROOT_CHAIN
      (if incoming then CHAINPREFIX_HOST_IN_TEMP
       else CHAINPREFIX_HOST_OUT_TEMP) ifname)]

/-- `ebtablesLinkTmpRootChain` (script form): append the jump from the
system chain to the temporary root chain. -/
def ebtablesLinkTmpRootChain (incoming : Bool) (ifname : Str) :
    List ScriptCmd :=
  [ScriptCmd.appendRule Tool.ebt
    (if incoming then EBTABLES_CHAIN_INCOMING else EBTABLES_CHAIN_OUTGOING)
    (PRINT_ROOT_CHAIN
      (if incoming then CHAINPREFIX_HOST_IN_TEMP
       else CHAINPREFIX_HOST_OUT_TEMP) ifname)]

/-- `ebtablesUnlinkTmpRootChain` (script form). -/
def ebtablesUnlinkTmpRootChain (incoming : Bool) (ifname : Str) :
    List ScriptCmd :=
  [ScriptCmd.deleteJump Tool.ebt
    (if incoming then EBTABLES_CHAIN_INCOMING else EBTABLES_CHAIN_OUTGOING)
    (PRINT_ROOT_CHAIN
      (if incoming then CHAINPREFIX_HOST_IN_TEMP
       else CHAINPREFIX_HOST_OUT_TEMP) ifname)]

/-- `ebtablesRemoveTmpRootChain` (script form). -/
def ebtablesRemoveTmpRootChain (incoming : Bool) (ifname : Str) :
    List ScriptCmd :=
  let chain := PRINT_ROOT_CHAIN
    (if incoming then CHAINPREFIX_HOST_IN_TEMP
     else CHAINPREFIX_HOST_OUT_TEMP) ifname
  [ScriptCmd.flushChain Tool.ebt chain, ScriptCmd.deleteChain Tool.ebt chain]

/-- `_ebtablesRemoveSubChains` (script form): flush the listed root chains
and recursively remove every reachable chain with one of the given prefix
letters (the `collect_chains`/`rm_chains` shell functions). -/
def _ebtablesRemoveSubChains (ifname : Str) (chains : List Char) :
    List ScriptCmd :=
  chains.map (fun p =>
    ScriptCmd.flushChain Tool.ebt (PRINT_ROOT_CHAIN p ifname)) ++
  [ScriptCmd.collectRmChains Tool.ebt chains
    (chains.map (fun p => PRINT_ROOT_CHAIN p ifname))]

/-- `ebtablesRemoveTmpSubChains`. -/
def ebtablesRemoveTmpSubChains (ifname : Str) : List ScriptCmd :=
  _ebtablesRemoveSubChains ifname
    [CHAINPREFIX_HOST_IN_TEMP, CHAINPREFIX_HOST_OUT_TEMP]

/-- The `l3_protocols` table: protocol name and the rendered
protocol-match fragment of the sub-chain link command (`-p 0x%04x `, the
empty match for `mac`, and the bridge-group-address match for `stp`). -/
def l3_protocols : List (Str × Str) :=
  [("ipv4".data, "-p 0x0800 ".data),
   ("ipv6".data, "-p 0x86dd ".data),
   ("arp".data,  "-p 0x0806 ".data),
   ("rarp".data, "-p 0x8035 ".data),
   ("mac".data,  "".data),
   ("vlan".data, "-p 0x8100 ".data),
   ("stp".data,  "-d 01:80:c2:00:00:00 ".data)]

/-- `ebtablesGetProtoIdxByFiltername`: prefix matching over the protocol
table. -/
def ebtablesGetProtoIdxByFiltername (filtername : Str) : Option Nat :=
  l3_protocols.findIdx? (fun e => decide (e.1 <+: filtername))

/-- `ebtablesCreateTmpSubChain`: the flush/delete/create commands for one
temporary protocol sub-chain plus the link into the temporary root chain,
as a schedulable instance with the chain's priority. -/
def ebtablesCreateTmpSubChain (incoming : Bool) (ifname : Str)
    (protostr : Str) (filtername : Str) (priority : Int) :
    EbiptablesRuleInst :=
  let chainPrefix := if incoming then CHAINPREFIX_HOST_IN_TEMP
                     else CHAINPREFIX_HOST_OUT_TEMP
  let rootchain := PRINT_ROOT_CHAIN chainPrefix ifname
  let chain := PRINT_CHAIN chainPrefix ifname filtername
  { commandTemplate :=
      [ScriptCmd.flushChain Tool.ebt chain,
       ScriptCmd.deleteChain Tool.ebt chain,
       ScriptCmd.newChain Tool.ebt chain,
       ScriptCmd.appendRule Tool.ebt rootchain
         (protostr ++ "-j ".data ++ chain)],
    neededProtocolChain := virNWFilterChainSuffixRoot,
    priority := priority }

/-- `virHashUpdateEntry` over the chain-name/priority association. -/
def hashUpdateEntry (l : List (Str × Int)) (k : Str) (v : Int) :
    List (Str × Int) :=
  if l.any (fun kv => decide (kv.1 = k)) then
    l.map (fun kv => if kv.1 = k then (k, v) else kv)
  else l ++ [(k, v)]

/-- `ebtablesCreateTmpRootAndSubChains`: the root-chain creation commands
go to the script buffer; for every chain name with a recognized protocol
prefix (in ascending chain-priority order) a sub-chain instance is
created. -/
def ebtablesCreateTmpRootAndSubChains (ifname : Str)
    (chains : List (Str × Int)) (incoming : Bool) :
    List ScriptCmd × List EbiptablesRuleInst :=
  (ebtablesCreateTmpRootChain incoming ifname,
   (sortByCmp (fun a b => decide (a.2 ≤ b.2)) chains).filterMap (fun kv =>
     (ebtablesGetProtoIdxByFiltername kv.1).map (fun idx =>
       ebtablesCreateTmpSubChain incoming ifname
         ((l3_protocols.getD idx ("".data, "".data)).2) kv.1 kv.2)))

/-- `iptablesLinkIPTablesBaseChain` (script form): the idempotent re-link
block — insert the jump to the user-defined base chain at its fixed
position, removing a stale duplicate at the following position. -/
def iptablesLinkIPTablesBaseChain (t : Tool) (udchain syschain : Str)
    (pos : Nat) : List ScriptCmd :=
  [ScriptCmd.insertBaseJump t syschain pos udchain,
   ScriptCmd.deleteRuleAt t syschain]

/-- `iptablesCreateBaseChains` (script form). -/
def iptablesCreateBaseChains (t : Tool) : List ScriptCmd :=
  [ScriptCmd.newChain t VIRT_IN_CHAIN,
   ScriptCmd.newChain t VIRT_OUT_CHAIN,
   ScriptCmd.newChain t VIRT_IN_POST_CHAIN,
   ScriptCmd.newChain t HOST_IN_CHAIN] ++
  iptablesLinkIPTablesBaseChain t VIRT_IN_CHAIN "FORWARD".data 1 ++
  iptablesLinkIPTablesBaseChain t VIRT_OUT_CHAIN "FORWARD".data 2 ++
  iptablesLinkIPTablesBaseChain t VIRT_IN_POST_CHAIN "FORWARD".data 3 ++
  iptablesLinkIPTablesBaseChain t HOST_IN_CHAIN "INPUT".data 1

/-- `iptablesCreateTmpRootChain` (script form). -/
def iptablesCreateTmpRootChain (t : Tool) (pfx : Char) (incoming : Bool)
    (ifname : Str) : List ScriptCmd :=
  [ScriptCmd.newChain t
    (PRINT_IPT_ROOT_CHAIN pfx
      (if incoming then CHAINPREFIX_HOST_IN_TEMP
       else CHAINPREFIX_HOST_OUT_TEMP) ifname)]

/-- `iptablesCreateTmpRootChains`. -/
def iptablesCreateTmpRootChains (t : Tool) (ifname : Str) :
    List ScriptCmd :=
  iptablesCreateTmpRootChain t 'F' false ifname ++
  iptablesCreateTmpRootChain t 'F' true ifname ++
  iptablesCreateTmpRootChain t 'H' true ifname

/-- `iptablesRemoveTmpRootChain` (script form). -/
def iptablesRemoveTmpRootChain (t : Tool) (pfx : Char) (incoming : Bool)
    (ifname : Str) : List ScriptCmd :=
  let chain := PRINT_IPT_ROOT_CHAIN pfx
    (if incoming then CHAINPREFIX_HOST_IN_TEMP
     else CHAINPREFIX_HOST_OUT_TEMP) ifname
  [ScriptCmd.flushChain t chain, ScriptCmd.deleteChain t chain]

/-- `iptablesRemoveTmpRootChains`. -/
def iptablesRemoveTmpRootChains (t : Tool) (ifname : Str) :
    List ScriptCmd :=
  iptablesRemoveTmpRootChain t 'F' false ifname ++
  iptablesRemoveTmpRootChain t 'F' true ifname ++
  iptablesRemoveTmpRootChain t 'H' true ifname

/-- `iptablesUnlinkTmpRootChain` (script form): delete the jump from the
base chain, plus the legacy-match duplicate for the outgoing direction. -/
def iptablesUnlinkTmpRootChain (t : Tool) (basechain : Str) (pfx : Char)
    (incoming : Bool) (ifname : Str) : List ScriptCmd :=
  let chain := PRINT_IPT_ROOT_CHAIN pfx
    (if incoming then CHAINPREFIX_HOST_IN_TEMP
     else CHAINPREFIX_HOST_OUT_TEMP) ifname
  ScriptCmd.deleteJump t basechain chain ::
    (if ¬ incoming then [ScriptCmd.deleteJump t basechain chain] else [])

/-- `iptablesUnlinkTmpRootChains`. -/
def iptablesUnlinkTmpRootChains (t : Tool) (ifname : Str) :
    List ScriptCmd :=
  iptablesUnlinkTmpRootChain t VIRT_OUT_CHAIN 'F' false ifname ++
  iptablesUnlinkTmpRootChain t VIRT_IN_CHAIN 'F' true ifname ++
  iptablesUnlinkTmpRootChain t HOST_IN_CHAIN 'H' true ifname

/-- `iptablesLinkTmpRootChain` (script form). -/
def iptablesLinkTmpRootChain (t : Tool) (basechain : Str) (pfx : Char)
    (incoming : Bool) (ifname : Str) : List ScriptCmd :=
  [ScriptCmd.appendRule t basechain
    (PRINT_IPT_ROOT_CHAIN pfx
      (if incoming then CHAINPREFIX_HOST_IN_TEMP
       else CHAINPREFIX_HOST_OUT_TEMP) ifname)]

/-- `iptablesLinkTmpRootChains`. -/
def iptablesLinkTmpRootChains (t : Tool) (ifname : Str) : List ScriptCmd :=
  iptablesLinkTmpRootChain t VIRT_OUT_CHAIN 'F' false ifname ++
  iptablesLinkTmpRootChain t VIRT_IN_CHAIN 'F' true ifname ++
  iptablesLinkTmpRootChain t HOST_IN_CHAIN 'H' true ifname

/-- `iptablesSetupVirtInPost` (script form): the guarded accept rule in
`libvirt-in-post`. -/
def iptablesSetupVirtInPost (t : Tool) (ifname : Str) : List ScriptCmd :=
  [ScriptCmd.appendRule t VIRT_IN_POST_CHAIN ifname]

/-- The script commands of one rule's compiled templates (each template is
an append into its target chain). -/
def ruleTemplateCmds (t : Tool) (ts : Option (List RuleTemplate)) :
    List ScriptCmd :=
  match ts with
  | none => []
  | some l => l.map (fun tp => ScriptCmd.appendRule t tp.chain tp.text)

/-- `ebtablesRuleInstCommand`: instantiate one ethernet rule. -/
def ebtablesRuleInstCommand (ctdir : CtdirStatus) (ifname : Str)
    (r : RuleInst) : List ScriptCmd :=
  ruleTemplateCmds Tool.ebt
    (ebiptablesCreateRuleInstance ctdir r.chainSuffix r.ruleDef ifname)

/-- `iptablesRuleInstCommand`: instantiate one IP rule. -/
def iptablesRuleInstCommand (t : Tool) (ctdir : CtdirStatus) (ifname : Str)
    (r : RuleInst) : List ScriptCmd :=
  ruleTemplateCmds t
    (ebiptablesCreateRuleInstance ctdir r.chainSuffix r.ruleDef ifname)

/-- The ebtables command stream of the interleaving loop: chain-creation
blocks interleaved with ethernet rule commands. -/
def interleavedCmds (ctdir : CtdirStatus) (ifname : Str)
    (items : List (EbiptablesRuleInst ⊕ RuleInst)) : List ScriptCmd :=
  items.flatMap (fun it =>
    match it with
    | Sum.inl c => c.commandTemplate
    | Sum.inr r => ebtablesRuleInstCommand ctdir ifname r)

/-- The environment of one apply run: whether the ebtables tool is
available and the cached `--ctdir` probe result. -/
structure ApplyEnv where
  ebtablesAvail : Bool
  ctdir : CtdirStatus

/-- The rollback entry points of `ebiptablesApplyNewRules` (its error
labels, which fall through from top to bottom). -/
inductive TearLabel
  | ebsubchains | tmpip6t | tmpipt | tmpebchains
  deriving DecidableEq, Repr

/-- One batch of script commands submitted by a single `ebiptablesExecCLI`
call, with the rollback label taken when that call fails and the
`haveIptables`/`haveIp6tables` values at that point. -/
structure ApplyChunk where
  cmds : List ScriptCmd
  failLabel : TearLabel
  haveIpt : Bool
  haveIp6 : Bool

/-- The stale-temporary-generation cleanup at the start of apply (whose
execution result is ignored). -/
def applyCleanupCmds (env : ApplyEnv) (ifname : Str) : List ScriptCmd :=
  if env.ebtablesAvail then
    setShellVarCmds Tool.ebt ++
    ebtablesUnlinkTmpRootChain true ifname ++
    ebtablesUnlinkTmpRootChain false ifname ++
    ebtablesRemoveTmpSubChains ifname ++
    ebtablesRemoveTmpRootChain true ifname ++
    ebtablesRemoveTmpRootChain false ifname
  else []

/-- The four per-backend chunks of the iptables/ip6tables phases: clean
stale temporary chains and ensure base chains; create temporary root
chains; link them and set up `libvirt-in-post`; emit the rule commands. -/
def iptablesPhaseChunks (t : Tool) (isV6 : Bool) (ctdir : CtdirStatus)
    (ifname : Str) (rules : List RuleInst) (haveIpt haveIp6 : Bool) :
    List ApplyChunk :=
  [{ cmds := setShellVarCmds t ++
       iptablesUnlinkTmpRootChains t ifname ++
       iptablesRemoveTmpRootChains t ifname ++
       iptablesCreateBaseChains t,
     failLabel := if isV6 then TearLabel.tmpipt else TearLabel.tmpebchains,
     haveIpt := haveIpt, haveIp6 := haveIp6 },
   { cmds := setShellVarCmds t ++ iptablesCreateTmpRootChains t ifname,
     failLabel := if isV6 then TearLabel.tmpip6t else TearLabel.tmpipt,
     haveIpt := haveIpt, haveIp6 := haveIp6 },
   { cmds := setShellVarCmds t ++ iptablesLinkTmpRootChains t ifname ++
       iptablesSetupVirtInPost t ifname,
     failLabel := if isV6 then TearLabel.tmpip6t else TearLabel.tmpipt,
     haveIpt := haveIpt, haveIp6 := haveIp6 },
   { cmds := setShellVarCmds t ++
       (rules.filter (fun r =>
         if isV6 then virNWFilterRuleIsProtocolIPv6 r.ruleDef
         else virNWFilterRuleIsProtocolIPv4 r.ruleDef)).flatMap
         (iptablesRuleInstCommand t ctdir ifname),
     failLabel := if isV6 then TearLabel.tmpip6t else TearLabel.tmpipt,
     haveIpt := haveIpt, haveIp6 := haveIp6 }]

/-- The exec-delimited phases of `ebiptablesApplyNewRules`: rule sorting,
needed-chain collection, temporary chain creation, the interleaved
ebtables population, the per-backend iptables phases, and the final
linking of the ebtables temporary root chains. -/
def applyChunks (env : ApplyEnv) (ifname : Str) (rulesIn : List RuleInst) :
    List ApplyChunk :=
  let rules := sortByCmp
    (fun a b => decide (virNWFilterRuleInstSort a b ≤ 0)) rulesIn
  let chains_in_set := rules.foldl (fun acc r =>
    if virNWFilterRuleIsProtocolEthernet r.ruleDef ∧
       (r.ruleDef.tt = RuleDirection.dirOut ∨
        r.ruleDef.tt = RuleDirection.dirInOut) then
      hashUpdateEntry acc r.chainSuffix r.chainPriority
    else acc) []
  let chains_out_set := rules.foldl (fun acc r =>
    if virNWFilterRuleIsProtocolEthernet r.ruleDef ∧
       (r.ruleDef.tt = RuleDirection.dirIn ∨
        r.ruleDef.tt = RuleDirection.dirInOut) then
      hashUpdateEntry acc r.chainSuffix r.chainPriority
    else acc) []
  let inPart := if chains_in_set.length > 0 then
      ebtablesCreateTmpRootAndSubChains ifname chains_in_set true
    else ([], [])
  let outPart := if chains_out_set.length > 0 then
      ebtablesCreateTmpRootAndSubChains ifname chains_out_set false
    else ([], [])
  let ebtChains := sortByCmp
    (fun a b => decide (ebiptablesRuleOrderSort a b ≤ 0))
    (inPart.2 ++ outPart.2)
  let rulesAdj := rules.map adjustRulePriority
  let haveIpt := rules.any (fun r => virNWFilterRuleIsProtocolIPv4 r.ruleDef)
  let haveIp6 := rules.any (fun r => virNWFilterRuleIsProtocolIPv6 r.ruleDef)
  [{ cmds := setShellVarCmds Tool.ebt ++ inPart.1 ++ outPart.1,
     failLabel := TearLabel.tmpebchains, haveIpt := false,
     haveIp6 := false },
   { cmds := setShellVarCmds Tool.ebt ++
       interleavedCmds env.ctdir ifname (applyInterleave ebtChains rulesAdj),
     failLabel := TearLabel.tmpebchains, haveIpt := haveIpt,
     haveIp6 := haveIp6 }] ++
  (if haveIpt then
    iptablesPhaseChunks Tool.ipt false env.ctdir ifname rules haveIpt haveIp6
   else []) ++
  (if haveIp6 then
    iptablesPhaseChunks Tool.ip6t true env.ctdir ifname rules haveIpt haveIp6
   else []) ++
  [{ cmds := setShellVarCmds Tool.ebt ++
       (if chains_in_set.length > 0 then
         ebtablesLinkTmpRootChain true ifname else []) ++
       (if chains_out_set.length > 0 then
         ebtablesLinkTmpRootChain false ifname else []),
     failLabel := TearLabel.ebsubchains, haveIpt := haveIpt,
     haveIp6 := haveIp6 }]

/-- The `tear_down_tmpebchains` rollback tail. -/
def tearDownTmpEbChains (env : ApplyEnv) (ifname : Str) : List ScriptCmd :=
  if env.ebtablesAvail then
    setShellVarCmds Tool.ebt ++
    ebtablesRemoveTmpSubChains ifname ++
    ebtablesRemoveTmpRootChain true ifname ++
    ebtablesRemoveTmpRootChain false ifname
  else []

/-- The `tear_down_tmpiptchains` rollback block. -/
def tearDownTmpIptChains (haveIpt : Bool) (ifname : Str) : List ScriptCmd :=
  if haveIpt then
    setShellVarCmds Tool.ipt ++
    iptablesUnlinkTmpRootChains Tool.ipt ifname ++
    iptablesRemoveTmpRootChains Tool.ipt ifname
  else []

/-- The `tear_down_tmpip6tchains` rollback block. -/
def tearDownTmpIp6tChains (haveIp6 : Bool) (ifname : Str) :
    List ScriptCmd :=
  if haveIp6 then
    setShellVarCmds Tool.ip6t ++
    iptablesUnlinkTmpRootChains Tool.ip6t ifname ++
    iptablesRemoveTmpRootChains Tool.ip6t ifname
  else []

/-- The `tear_down_ebsubchains_and_unlink` rollback block. -/
def tearDownEbSubUnlink (env : ApplyEnv) (ifname : Str) : List ScriptCmd :=
  if env.ebtablesAvail then
    setShellVarCmds Tool.ebt ++
    ebtablesUnlinkTmpRootChain true ifname ++
    ebtablesUnlinkTmpRootChain false ifname
  else []

/-- The rollback command sequence from a given label, with the labels
falling through top to bottom as in the source. -/
def tearDownFrom (env : ApplyEnv) (haveIpt haveIp6 : Bool) (ifname : Str) :
    TearLabel → List ScriptCmd
  | .ebsubchains =>
    tearDownEbSubUnlink env ifname ++
    tearDownTmpIp6tChains haveIp6 ifname ++
    tearDownTmpIptChains haveIpt ifname ++
    tearDownTmpEbChains env ifname
  | .tmpip6t =>
    tearDownTmpIp6tChains haveIp6 ifname ++
    tearDownTmpIptChains haveIpt ifname ++
    tearDownTmpEbChains env ifname
  | .tmpipt =>
    tearDownTmpIptChains haveIpt ifname ++
    tearDownTmpEbChains env ifname
  | .tmpebchains => tearDownTmpEbChains env ifname

/-- `ebiptablesApplyNewRules`, with failure injection: `failAt = some n`
makes the `n`-th (non-ignored) `ebiptablesExecCLI` call return failure.
Returns whether the apply succeeded together with every script command
submitted (including the rollback commands on failure). -/
def ebiptablesApplyNewRules (env : ApplyEnv) (ifname : Str)
    (rules : List RuleInst) (failAt : Option Nat) :
    Bool × List ScriptCmd :=
  let chunks := applyChunks env ifname rules
  let cleanup := applyCleanupCmds env ifname
  match failAt with
  | none => (true, cleanup ++ (chunks.map (fun c => c.cmds)).flatten)
  | some n =>
    if h : n < chunks.length then
      let ck := chunks.get ⟨n, h⟩
      (false,
       cleanup ++ ((chunks.take (n + 1)).map (fun c => c.cmds)).flatten ++
         tearDownFrom env ck.haveIpt ck.haveIp6 ifname ck.failLabel)
    else (true, cleanup ++ (chunks.map (fun c => c.cmds)).flatten)

/-- Whether a script command flushes, deletes, renames or unlinks the
given chain. -/
def scriptCmdRemovesChain : ScriptCmd → Str → Bool
  | .setShellVar _, _ => false
  | .newChain _ _, _ => false
  | .flushChain _ c, ch => decide (ch = c)
  | .deleteChain _ c, ch => decide (ch = c)
  | .renameChain _ o n, ch => decide (ch = o) || decide (ch = n)
  | .appendRule _ _ _, _ => false
  | .insertBaseJump _ _ _ _, _ => false
  | .deleteRuleAt _ _, _ => false
  | .deleteJump _ _ tgt, ch => decide (ch = tgt)
  | .collectRmChains _ prefixes _, ch => headDashPrefix prefixes ch

/-- Every chain removed by any command of the list is a
temporary-generation chain of the interface. -/
def TempOnly (ifname : Str) (l : List ScriptCmd) : Prop :=
  ∀ cmd ∈ l, ∀ ch, scriptCmdRemovesChain cmd ch = true →
    isTempGenChain ifname ch = true

theorem TempOnly.append {ifname : Str} {a b : List ScriptCmd}
    (ha : TempOnly ifname a) (hb : TempOnly ifname b) :
    TempOnly ifname (a ++ b) := by
  intro cmd hmem
  rcases List.mem_append.mp hmem with h | h
  · exact ha cmd h
  · exact hb cmd h

theorem TempOnly.nil {ifname : Str} : TempOnly ifname [] := by
  intro cmd hmem
  cases hmem

/-- Commands that remove no chain are trivially safe. -/
theorem tempOnly_setShellVar {ifname : Str} (t : Tool) :
    TempOnly ifname (setShellVarCmds t) := by
  intro cmd hmem ch hrem
  simp only [setShellVarCmds, List.mem_singleton] at hmem
  subst hmem
  simp [scriptCmdRemovesChain] at hrem

theorem tempOnly_ebtUnlinkTmp {ifname : Str} (incoming : Bool) :
    TempOnly ifname (ebtablesUnlinkTmpRootChain incoming ifname) := by
  intro cmd hmem ch hrem
  simp only [ebtablesUnlinkTmpRootChain, List.mem_singleton] at hmem
  subst hmem
  simp only [scriptCmdRemovesChain, decide_eq_true_eq] at hrem
  subst hrem
  cases incoming <;> simp [isTempGenChain]

theorem tempOnly_ebtRemoveTmpRoot {ifname : Str} (incoming : Bool) :
    TempOnly ifname (ebtablesRemoveTmpRootChain incoming ifname) := by
  intro cmd hmem ch hrem
  simp only [ebtablesRemoveTmpRootChain, List.mem_cons, List.not_mem_nil,
    or_false] at hmem
  rcases hmem with rfl | rfl <;>
    (simp only [scriptCmdRemovesChain, decide_eq_true_eq] at hrem
     subst hrem
     cases incoming <;> simp [isTempGenChain])

theorem tempOnly_ebtRemoveTmpSubChains {ifname : Str} :
    TempOnly ifname (ebtablesRemoveTmpSubChains ifname) := by
  intro cmd hmem ch hrem
  simp only [ebtablesRemoveTmpSubChains, _ebtablesRemoveSubChains,
    List.map_cons, List.map_nil, List.mem_append, List.mem_cons,
    List.not_mem_nil, or_false] at hmem
  rcases hmem with (rfl | rfl) | rfl
  · simp only [scriptCmdRemovesChain, decide_eq_true_eq] at hrem
    subst hrem
    simp [isTempGenChain]
  · simp only [scriptCmdRemovesChain, decide_eq_true_eq] at hrem
    subst hrem
    simp [isTempGenChain]
  · simp only [scriptCmdRemovesChain] at hrem
    simp [isTempGenChain, hrem]

theorem tempOnly_iptUnlinkTmp {ifname : Str} (t : Tool) :
    TempOnly ifname (iptablesUnlinkTmpRootChains t ifname) := by
  intro cmd hmem ch hrem
  simp [iptablesUnlinkTmpRootChains, iptablesUnlinkTmpRootChain] at hmem
  rcases hmem with rfl | rfl | rfl <;>
    (simp only [scriptCmdRemovesChain, decide_eq_true_eq] at hrem
     subst hrem
     simp [isTempGenChain])

theorem tempOnly_iptRemoveTmp {ifname : Str} (t : Tool) :
    TempOnly ifname (iptablesRemoveTmpRootChains t ifname) := by
  intro cmd hmem ch hrem
  simp [iptablesRemoveTmpRootChains, iptablesRemoveTmpRootChain] at hmem
  rcases hmem with rfl | rfl | rfl | rfl | rfl | rfl <;>
    (simp only [scriptCmdRemovesChain, decide_eq_true_eq] at hrem
     subst hrem
     simp [isTempGenChain])

theorem tempOnly_iptCreateTmp {ifname : Str} (t : Tool) :
    TempOnly ifname (iptablesCreateTmpRootChains t ifname) := by
  intro cmd hmem ch hrem
  simp [iptablesCreateTmpRootChains, iptablesCreateTmpRootChain] at hmem
  rcases hmem with rfl | rfl | rfl <;>
    simp [scriptCmdRemovesChain] at hrem

theorem tempOnly_iptBaseChains {ifname : Str} (t : Tool) :
    TempOnly ifname (iptablesCreateBaseChains t) := by
  intro cmd hmem ch hrem
  simp [iptablesCreateBaseChains, iptablesLinkIPTablesBaseChain] at hmem
  rcases hmem with rfl | rfl | rfl | rfl | rfl | rfl | rfl | rfl | rfl |
    rfl | rfl | rfl <;>
    simp [scriptCmdRemovesChain] at hrem

theorem tempOnly_iptLinkTmp {ifname : Str} (t : Tool) :
    TempOnly ifname (iptablesLinkTmpRootChains t ifname) := by
  intro cmd hmem ch hrem
  simp [iptablesLinkTmpRootChains, iptablesLinkTmpRootChain] at hmem
  rcases hmem with rfl | rfl | rfl <;>
    simp [scriptCmdRemovesChain] at hrem

theorem tempOnly_iptVirtInPost {ifname : Str} (t : Tool) :
    TempOnly ifname (iptablesSetupVirtInPost t ifname) := by
  intro cmd hmem ch hrem
  simp only [iptablesSetupVirtInPost, List.mem_singleton] at hmem
  subst hmem
  simp [scriptCmdRemovesChain] at hrem

theorem tempOnly_ebtLinkTmp {ifname : Str} (incoming : Bool) :
    TempOnly ifname (ebtablesLinkTmpRootChain incoming ifname) := by
  intro cmd hmem ch hrem
  simp only [ebtablesLinkTmpRootChain, List.mem_singleton] at hmem
  subst hmem
  simp [scriptCmdRemovesChain] at hrem

theorem tempOnly_ruleTemplates {ifname : Str} (t : Tool)
    (ts : Option (List RuleTemplate)) :
    TempOnly ifname (ruleTemplateCmds t ts) := by
  intro cmd hmem ch hrem
  cases ts with
  | none => cases hmem
  | some l =>
    simp only [ruleTemplateCmds, List.mem_map] at hmem
    obtain ⟨tp, _, rfl⟩ := hmem
    simp [scriptCmdRemovesChain] at hrem

theorem tempOnly_subChainTemplate {ifname : Str} (incoming : Bool)
    (protostr filtername : Str) (priority : Int) :
    TempOnly ifname
      (ebtablesCreateTmpSubChain incoming ifname protostr filtername
        priority).commandTemplate := by
  intro cmd hmem ch hrem
  simp only [ebtablesCreateTmpSubChain, List.mem_cons, List.not_mem_nil,
    or_false] at hmem
  rcases hmem with rfl | rfl | rfl | rfl
  · simp only [scriptCmdRemovesChain, decide_eq_true_eq] at hrem
    subst hrem
    cases incoming <;>
      simp [isTempGenChain, headDashPrefix, PRINT_CHAIN,
        CHAINPREFIX_HOST_IN_TEMP, CHAINPREFIX_HOST_OUT_TEMP]
  · simp only [scriptCmdRemovesChain, decide_eq_true_eq] at hrem
    subst hrem
    cases incoming <;>
      simp [isTempGenChain, headDashPrefix, PRINT_CHAIN,
        CHAINPREFIX_HOST_IN_TEMP, CHAINPREFIX_HOST_OUT_TEMP]
  · simp [scriptCmdRemovesChain] at hrem
  · simp [scriptCmdRemovesChain] at hrem

/-- Temporary-generation chain names are never active-generation names. -/
theorem temp_not_active (ifname ch : Str)
    (h : isTempGenChain ifname ch = true) :
    isActiveGenChain ifname ch = false := by
  simp only [isTempGenChain, Bool.or_eq_true, decide_eq_true_eq] at h
  rcases h with ((((h | h) | h) | h) | h) | h
  · subst h
    simp [isActiveGenChain, PRINT_ROOT_CHAIN, PRINT_IPT_ROOT_CHAIN,
      CHAINPREFIX_HOST_IN, CHAINPREFIX_HOST_OUT, CHAINPREFIX_HOST_IN_TEMP,
      CHAINPREFIX_HOST_OUT_TEMP, headDashPrefix]
  · subst h
    simp [isActiveGenChain, PRINT_ROOT_CHAIN, PRINT_IPT_ROOT_CHAIN,
      CHAINPREFIX_HOST_IN, CHAINPREFIX_HOST_OUT, CHAINPREFIX_HOST_IN_TEMP,
      CHAINPREFIX_HOST_OUT_TEMP, headDashPrefix]
  · subst h
    simp [isActiveGenChain, PRINT_ROOT_CHAIN, PRINT_IPT_ROOT_CHAIN,
      CHAINPREFIX_HOST_IN, CHAINPREFIX_HOST_OUT, CHAINPREFIX_HOST_IN_TEMP,
      CHAINPREFIX_HOST_OUT_TEMP, headDashPrefix]
  · subst h
    simp [isActiveGenChain, PRINT_ROOT_CHAIN, PRINT_IPT_ROOT_CHAIN,
      CHAINPREFIX_HOST_IN, CHAINPREFIX_HOST_OUT, CHAINPREFIX_HOST_IN_TEMP,
      CHAINPREFIX_HOST_OUT_TEMP, headDashPrefix]
  · subst h
    simp [isActiveGenChain, PRINT_ROOT_CHAIN, PRINT_IPT_ROOT_CHAIN,
      CHAINPREFIX_HOST_IN, CHAINPREFIX_HOST_OUT, CHAINPREFIX_HOST_IN_TEMP,
      CHAINPREFIX_HOST_OUT_TEMP, headDashPrefix]
  · unfold headDashPrefix at h
    split at h
    · rename_i p tail
      simp only [List.contains_cons, List.contains_nil, Bool.or_false,
        CHAINPREFIX_HOST_IN_TEMP, CHAINPREFIX_HOST_OUT_TEMP] at h
      have hp : p = 'J' ∨ p = 'P' := by
        rcases Bool.or_eq_true_iff.mp h with h' | h'
        · exact Or.inl (by simpa using h')
        · exact Or.inr (by simpa using h')
      rcases hp with rfl | rfl <;>
        simp [isActiveGenChain, PRINT_ROOT_CHAIN, PRINT_IPT_ROOT_CHAIN,
          CHAINPREFIX_HOST_IN, CHAINPREFIX_HOST_OUT, headDashPrefix]
    · cases h

/-- Every element of the interleaved stream is either one of the chain
blocks or one of the rules. -/
theorem mem_applyInterleave {chains : List EbiptablesRuleInst}
    {rules : List RuleInst} {x : EbiptablesRuleInst ⊕ RuleInst}
    (hx : x ∈ applyInterleave chains rules) :
    (∃ c ∈ chains, x = Sum.inl c) ∨ (∃ r ∈ rules, x = Sum.inr r) := by
  induction rules generalizing chains with
  | nil =>
    rw [applyInterleave] at hx
    obtain ⟨c, hc, rfl⟩ := List.mem_map.mp hx
    exact Or.inl ⟨c, hc, rfl⟩
  | cons r rs ih =>
    rw [applyInterleave] at hx
    by_cases heth : virNWFilterRuleIsProtocolEthernet r.ruleDef
    · rw [if_pos heth] at hx
      rcases List.mem_append.mp hx with h | h
      · obtain ⟨c, hc, rfl⟩ := List.mem_map.mp h
        exact Or.inl ⟨c, (List.takeWhile_sublist _).subset hc, rfl⟩
      · rcases List.mem_cons.mp h with rfl | h
        · exact Or.inr ⟨r, List.mem_cons_self _ _, rfl⟩
        · rcases ih h with ⟨c, hc, rfl⟩ | ⟨r', hr', rfl⟩
          · exact Or.inl ⟨c, (List.dropWhile_sublist _).subset hc, rfl⟩
          · exact Or.inr ⟨r', List.mem_cons_of_mem _ hr', rfl⟩
    · rw [if_neg heth] at hx
      rcases ih hx with ⟨c, hc, rfl⟩ | ⟨r', hr', rfl⟩
      · exact Or.inl ⟨c, hc, rfl⟩
      · exact Or.inr ⟨r', List.mem_cons_of_mem _ hr', rfl⟩

/-- Membership in a guarded list. -/
theorem mem_ite_list {α : Type} {c : Prop} [Decidable c] {a : List α}
    {x : α} (h : x ∈ (if c then a else [])) : x ∈ a := by
  split at h
  · exact h
  · cases h

/-- Every sub-chain instance produced for a chain set has a safe command
template. -/
theorem tempOnly_rootAndSubChains (ifname : Str) (chains : List (Str × Int))
    (incoming : Bool) :
    TempOnly ifname
      (ebtablesCreateTmpRootAndSubChains ifname chains incoming).1 ∧
    ∀ c ∈ (ebtablesCreateTmpRootAndSubChains ifname chains incoming).2,
      TempOnly ifname c.commandTemplate := by
  constructor
  · intro cmd hmem ch hrem
    simp only [ebtablesCreateTmpRootAndSubChains,
      ebtablesCreateTmpRootChain, List.mem_singleton] at hmem
    subst hmem
    simp [scriptCmdRemovesChain] at hrem
  · intro c hc
    simp only [ebtablesCreateTmpRootAndSubChains,
      List.mem_filterMap] at hc
    obtain ⟨kv, _, hkv⟩ := hc
    obtain ⟨idx, _, rfl⟩ := Option.map_eq_some'.mp hkv
    exact tempOnly_subChainTemplate incoming _ _ _

/-- Every chunk of the apply sequence only removes temporary-generation
chains. -/
theorem applyChunks_tempOnly (env : ApplyEnv) (ifname : Str)
    (rules : List RuleInst) :
    ∀ ck ∈ applyChunks env ifname rules, TempOnly ifname ck.cmds := by
  intro ck hmem
  have hphase : ∀ (t : Tool) (isV6 : Bool) (rs : List RuleInst)
      (hIpt hIp6 : Bool),
      ck ∈ iptablesPhaseChunks t isV6 env.ctdir ifname rs hIpt hIp6 →
      TempOnly ifname ck.cmds := by
    intro t isV6 rs hIpt hIp6 hck
    simp only [iptablesPhaseChunks, List.mem_cons, List.not_mem_nil,
      or_false] at hck
    rcases hck with rfl | rfl | rfl | rfl
    · exact ((tempOnly_setShellVar t).append
        (tempOnly_iptUnlinkTmp t)).append
        ((tempOnly_iptRemoveTmp t).append (tempOnly_iptBaseChains t))
    · exact (tempOnly_setShellVar t).append (tempOnly_iptCreateTmp t)
    · exact ((tempOnly_setShellVar t).append
        (tempOnly_iptLinkTmp t)).append (tempOnly_iptVirtInPost t)
    · refine (tempOnly_setShellVar t).append ?_
      intro cmd hcmd ch hrem
      obtain ⟨r, _, hr⟩ := List.mem_flatMap.mp hcmd
      exact tempOnly_ruleTemplates t _ cmd hr ch hrem
  simp only [applyChunks, List.mem_append, List.mem_cons,
    List.not_mem_nil, or_false] at hmem
  rcases hmem with (((rfl | rfl) | h4) | h6) | rfl
  · -- chunk 1: shell var + root-chain creation
    refine ((tempOnly_setShellVar _).append ?_).append ?_
    · split
      · exact (tempOnly_rootAndSubChains ifname _ true).1
      · exact TempOnly.nil
    · split
      · exact (tempOnly_rootAndSubChains ifname _ false).1
      · exact TempOnly.nil
  · -- chunk 2: the interleaved ebtables stream
    refine (tempOnly_setShellVar _).append ?_
    intro cmd hcmd ch hrem
    obtain ⟨item, hitem, hc⟩ := List.mem_flatMap.mp hcmd
    rcases mem_applyInterleave hitem with ⟨c, hcmem, rfl⟩ | ⟨r, _, rfl⟩
    · have hcmem' := (mem_sortByCmp _ _ _).mp hcmem
      rcases List.mem_append.mp hcmem' with h | h
      · have h' : c ∈ (if _ then
            ebtablesCreateTmpRootAndSubChains ifname _ true
          else (([], []) : List ScriptCmd × List EbiptablesRuleInst)).2 := h
        split at h'
        · exact (tempOnly_rootAndSubChains ifname _ true).2 c h' cmd hc
            ch hrem
        · cases h'
      · have h' : c ∈ (if _ then
            ebtablesCreateTmpRootAndSubChains ifname _ false
          else (([], []) : List ScriptCmd × List EbiptablesRuleInst)).2 := h
        split at h'
        · exact (tempOnly_rootAndSubChains ifname _ false).2 c h' cmd hc
            ch hrem
        · cases h'
    · exact tempOnly_ruleTemplates Tool.ebt _ cmd hc ch hrem
  · exact hphase Tool.ipt false _ _ _ (mem_ite_list h4)
  · exact hphase Tool.ip6t true _ _ _ (mem_ite_list h6)
  · -- final linking chunk
    refine ((tempOnly_setShellVar _).append ?_).append ?_
    · split
      · exact tempOnly_ebtLinkTmp true
      · exact TempOnly.nil
    · split
      · exact tempOnly_ebtLinkTmp false
      · exact TempOnly.nil

/-- The initial cleanup block only removes temporary-generation chains. -/
theorem tempOnly_cleanup (env : ApplyEnv) (ifname : Str) :
    TempOnly ifname (applyCleanupCmds env ifname) := by
  unfold applyCleanupCmds
  split
  · exact ((((((tempOnly_setShellVar Tool.ebt).append
      (tempOnly_ebtUnlinkTmp true)).append
      (tempOnly_ebtUnlinkTmp false)).append
      tempOnly_ebtRemoveTmpSubChains).append
      (tempOnly_ebtRemoveTmpRoot true)).append
      (tempOnly_ebtRemoveTmpRoot false))
  · exact TempOnly.nil

/-- Each rollback block only removes temporary-generation chains. -/
theorem tempOnly_tearDownFrom (env : ApplyEnv) (haveIpt haveIp6 : Bool)
    (ifname : Str) (lbl : TearLabel) :
    TempOnly ifname (tearDownFrom env haveIpt haveIp6 ifname lbl) := by
  have hEb : TempOnly ifname (tearDownTmpEbChains env ifname) := by
    unfold tearDownTmpEbChains
    split
    · exact (((tempOnly_setShellVar Tool.ebt).append
        tempOnly_ebtRemoveTmpSubChains).append
        (tempOnly_ebtRemoveTmpRoot true)).append
        (tempOnly_ebtRemoveTmpRoot false)
    · exact TempOnly.nil
  have hIpt : TempOnly ifname (tearDownTmpIptChains haveIpt ifname) := by
    unfold tearDownTmpIptChains
    split
    · exact ((tempOnly_setShellVar Tool.ipt).append
        (tempOnly_iptUnlinkTmp Tool.ipt)).append
        (tempOnly_iptRemoveTmp Tool.ipt)
    · exact TempOnly.nil
  have hIp6 : TempOnly ifname (tearDownTmpIp6tChains haveIp6 ifname) := by
    unfold tearDownTmpIp6tChains
    split
    · exact ((tempOnly_setShellVar Tool.ip6t).append
        (tempOnly_iptUnlinkTmp Tool.ip6t)).append
        (tempOnly_iptRemoveTmp Tool.ip6t)
    · exact TempOnly.nil
  have hUnlink : TempOnly ifname (tearDownEbSubUnlink env ifname) := by
    unfold tearDownEbSubUnlink
    split
    · exact ((tempOnly_setShellVar Tool.ebt).append
        (tempOnly_ebtUnlinkTmp true)).append (tempOnly_ebtUnlinkTmp false)
    · exact TempOnly.nil
  cases lbl with
  | ebsubchains =>
    exact ((hUnlink.append hIp6).append hIpt).append hEb
  | tmpip6t => exact (hIp6.append hIpt).append hEb
  | tmpipt => exact hIpt.append hEb
  | tmpebchains => exact hEb

/-- C1: apply with rollback. If an injected failure strikes one of the
execution steps, the apply reports failure; and every command ever
submitted — setup, rollback and initial cleanup alike — that flushes,
deletes, renames or unlinks a chain targets only temporary-generation
chain names (the `J`/`P`-prefixed generation), never an active-generation
chain, so the previously applied filters stay in place. -/
theorem applyNewRules_rollback_preserves_active (env : ApplyEnv)
    (ifname : Str) (rules : List RuleInst) (failAt : Option Nat)
    (hfail : ∀ n, failAt = some n →
      n < (applyChunks env ifname rules).length) :
    ((∀ n, failAt = some n →
        (ebiptablesApplyNewRules env ifname rules failAt).1 = false) ∧
      (failAt = none →
        (ebiptablesApplyNewRules env ifname rules failAt).1 = true)) ∧
    ∀ cmd ∈ (ebiptablesApplyNewRules env ifname rules failAt).2,
      ∀ ch, scriptCmdRemovesChain cmd ch = true →
        isTempGenChain ifname ch = true ∧
        isActiveGenChain ifname ch = false := by
  have hall : ∀ cmd ∈ (ebiptablesApplyNewRules env ifname rules failAt).2,
      ∀ ch, scriptCmdRemovesChain cmd ch = true →
        isTempGenChain ifname ch = true := by
    intro cmd hmem ch hrem
    unfold ebiptablesApplyNewRules at hmem
    cases failAt with
    | none =>
      simp only at hmem
      rcases List.mem_append.mp hmem with h | h
      · exact tempOnly_cleanup env ifname cmd h ch hrem
      · obtain ⟨cs, hcs, hcmd⟩ := List.mem_flatten.mp h
        obtain ⟨ck, hck, rfl⟩ := List.mem_map.mp hcs
        exact applyChunks_tempOnly env ifname rules ck hck cmd hcmd ch hrem
    | some n =>
      have hn := hfail n rfl
      simp only [dif_pos hn] at hmem
      rcases List.mem_append.mp hmem with h | h
      · rcases List.mem_append.mp h with h | h
        · exact tempOnly_cleanup env ifname cmd h ch hrem
        · obtain ⟨cs, hcs, hcmd⟩ := List.mem_flatten.mp h
          obtain ⟨ck, hck, rfl⟩ := List.mem_map.mp hcs
          exact applyChunks_tempOnly env ifname rules ck
            ((List.take_sublist _ _).subset hck) cmd hcmd ch hrem
      · exact tempOnly_tearDownFrom env _ _ ifname _ cmd h ch hrem
  refine ⟨⟨?_, ?_⟩, ?_⟩
  · intro n hn
    subst hn
    simp only [ebiptablesApplyNewRules, dif_pos (hfail n rfl)]
  · intro hnone
    subst hnone
    rfl
  · intro cmd hmem ch hrem
    exact ⟨hall cmd hmem ch hrem,
      temp_not_active ifname ch (hall cmd hmem ch hrem)⟩

/-- Concrete environment for the C1 witness: ebtables available, old
ctdir semantics. -/
def c1Env : ApplyEnv := ⟨true, CtdirStatus.old⟩

/-- Concrete one-rule instance list for the C1 witness. -/
def c1Rules : List RuleInst := [⟨sampleRule, "root".data, -500, -300⟩]

/-- Witness for C1: with a failure injected at the very first execution
step, the apply reports failure, and the hypothesis that the injected
index is in range holds. -/
theorem applyNewRules_rollback_preserves_active_witness :
    (∀ n, (some 0 : Option Nat) = some n →
      n < (applyChunks c1Env ("vnet0".data) c1Rules).length) ∧
    (ebiptablesApplyNewRules c1Env ("vnet0".data) c1Rules (some 0)).1 =
      false := by
  have hfail : ∀ n, (some 0 : Option Nat) = some n →
      n < (applyChunks c1Env ("vnet0".data) c1Rules).length := by
    intro n hn
    cases hn
    decide
  exact ⟨hfail, (applyNewRules_rollback_preserves_active c1Env
    ("vnet0".data) c1Rules (some 0) hfail).1.1 0 rfl⟩

end Ebiptables
